import Mathlib

/-!
# Attica: request building and the knowledge-base job

A shallow embedding of `src/lib/provider.cpp` (the provider façade and its
request builder) and of `src/lib/knowledgebaseentryjob.cpp` (the asynchronous
job), and a model of the JSON format parser that `src/lib/tests/jsontest.cpp`
exercises, followed by theorems about them.

Conventions of the embedding

* `QString` is `String`; `QByteArray` is `List Nat` (one number below 256 per
  byte).
* The Qt value classes the code uses (`QUrl`, `QNetworkRequest`) are modelled
  by records with the operations the code calls.  The text of a URL is split
  into components along the generic syntax of RFC 3986; percent escapes are
  kept as written.
* The private data of a provider is held through a shared data pointer: a
  member function that is not `const` detaches (clones the private data with
  its copy constructor) when the data is shared with another provider.
* Signals, timers and calls into collaborators are recorded in explicit logs.
* The format parser and the entity classes are not among the embedded files.
  Their model follows the specification; the recognised keys and the field
  types of each entity type follow the accessors and comparisons of the test
  suite.
-/

namespace Attica

/-! ## Strings and byte arrays -/

/-- A `QByteArray`: the list of its bytes. -/
abbrev QByteArray := List Nat

/-- The test `QString::isEmpty`. -/
def isEmpty (s : String) : Bool := s.data.isEmpty

/-- The UTF-8 encoding of one code point. -/
def utf8EncodeChar (c : Nat) : QByteArray :=
  if c < 0x80 then [c]
  else if c < 0x800 then [0xC0 + c / 64, 0x80 + c % 64]
  else if c < 0x10000 then [0xE0 + c / 4096, 0x80 + c / 64 % 64, 0x80 + c % 64]
  else [0xF0 + c / 262144, 0x80 + c / 4096 % 64, 0x80 + c / 64 % 64, 0x80 + c % 64]

/-- The conversion `QString::toLocal8Bit`, for a locale whose 8-bit codec is
UTF-8. -/
def toLocal8Bit (s : String) : QByteArray :=
  s.data.flatMap (fun c => utf8EncodeChar c.toNat)

/-- The conversion `QLatin1String(QByteArray)` to a `QString`: every byte
is the code point of one character. -/
def fromLatin1 (bytes : QByteArray) : String :=
  String.mk (bytes.map Char.ofNat)

/-- The alphabet of `QByteArray::toBase64`. -/
def base64Alphabet : List Nat :=
  ("ABCDEFGHIJKLMNOPQRSTUVWXYZabcdefghijklmnopqrstuvwxyz0123456789+/".data).map Char.toNat

/-- One character of the base64 alphabet. -/
def base64Digit (i : Nat) : Nat := base64Alphabet.getD i 61

/-- The encoding `QByteArray::toBase64`: three bytes are gathered into a 24-bit chunk
that is written as four characters of the alphabet; a last group of
one or two bytes is padded with `=` (61). -/
def toBase64 : QByteArray → QByteArray
  | [] => []
  | [a] =>
      let chunk := a * 65536
      [base64Digit (chunk / 262144 % 64), base64Digit (chunk / 4096 % 64), 61, 61]
  | [a, b] =>
      let chunk := a * 65536 + b * 256
      [base64Digit (chunk / 262144 % 64), base64Digit (chunk / 4096 % 64),
        base64Digit (chunk / 64 % 64), 61]
  | a :: b :: c :: rest =>
      let chunk := a * 65536 + b * 256 + c
      base64Digit (chunk / 262144 % 64) :: base64Digit (chunk / 4096 % 64) ::
        base64Digit (chunk / 64 % 64) :: base64Digit (chunk % 64) :: toBase64 rest

/-- The conversion `QString::number` of an `int`. -/
def numberInt (n : Int) : String := toString n

/-- The conversion `QString::number` of a `uint`. -/
def numberUInt (n : Nat) : String := toString n

/-- The join `QStringList::join`. -/
def join (sep : String) : List String → String
  | [] => ""
  | [s] => s
  | s :: t :: rest => s ++ sep ++ join sep (t :: rest)

/-! ## QUrl -/

/-- A `QUrl`, as its components. `hasAuthority` tells whether the text had a
`//` part; `host` is the authority after the user information (host and
port). -/
structure QUrl where
  scheme : String := ""
  hasAuthority : Bool := false
  userName : String := ""
  password : String := ""
  host : String := ""
  path : String := ""
  queryItems : List (String × String) := []
  fragment : String := ""
  deriving DecidableEq, Repr

/-- The part of a text before the first occurrence of a character. -/
def before (c : Char) (cs : List Char) : List Char := cs.takeWhile (fun x => x != c)

/-- The part of a text after the first occurrence of a character (empty when
the character does not occur). -/
def after (c : Char) (cs : List Char) : List Char := (cs.dropWhile (fun x => x != c)).drop 1

/-- The pieces of a text between the occurrences of a separator. -/
def splitOn (c : Char) : List Char → List (List Char)
  | [] => [[]]
  | x :: xs =>
      if x = c then [] :: splitOn c xs
      else
        match splitOn c xs with
        | [] => [[x]]
        | p :: ps => (x :: p) :: ps

/-- The items of a query text: pairs are separated by `&`, a key from its
value by the first `=`. An empty query has no items. -/
def parseQuery (q : List Char) : List (String × String) :=
  if q.isEmpty then []
  else (splitOn '&' q).map (fun item => (String.mk (before '=' item), String.mk (after '=' item)))

/-- The scheme of a text: the characters before the first `:`, when there are
some and none of them is a `/`. -/
def schemeOf (cs : List Char) : List Char :=
  let s := before ':' cs
  if s.isEmpty || s.length == cs.length || s.contains '/' then [] else s

/-- The constructor `QUrl(const QString&)`: the text is cut at the first `#` (fragment),
then at the first `?` (query), then into scheme, authority and path. -/
def QUrl.fromString (text : String) : QUrl :=
  let cs := text.data
  let fragment := after '#' cs
  let main := before '#' cs
  let query := after '?' main
  let hier := before '?' main
  let scheme := schemeOf hier
  let rest := if scheme.isEmpty then hier else hier.drop (scheme.length + 1)
  let hasAuthority := rest.take 2 == ['/', '/']
  let authority := if hasAuthority then before '/' (rest.drop 2) else []
  let path := if hasAuthority then (rest.drop 2).drop authority.length else rest
  let hasUserInfo := authority.contains '@'
  let userInfo := if hasUserInfo then before '@' authority else []
  { scheme := String.mk scheme
    hasAuthority := hasAuthority
    userName := String.mk (before ':' userInfo)
    password := String.mk (after ':' userInfo)
    host := String.mk (if hasUserInfo then after '@' authority else authority)
    path := String.mk path
    queryItems := parseQuery query
    fragment := String.mk fragment }

/-- The text of a query. -/
def queryText (items : List (String × String)) : String :=
  join "&" (items.map (fun kv => kv.1 ++ "=" ++ kv.2))

/-- The text `QUrl::toString`. -/
def QUrl.toString (u : QUrl) : String :=
  (if isEmpty u.scheme then "" else u.scheme ++ ":")
    ++ (if u.hasAuthority then
          "//" ++ (if isEmpty u.userName && isEmpty u.password then ""
                   else u.userName ++ (if isEmpty u.password then "" else ":" ++ u.password) ++ "@")
            ++ u.host
        else "")
    ++ u.path
    ++ (if u.queryItems.isEmpty then "" else "?" ++ queryText u.queryItems)
    ++ (if isEmpty u.fragment then "" else "#" ++ u.fragment)

/-- The test `QUrl::isEmpty`: no component is set. -/
def QUrl.isEmpty (u : QUrl) : Bool := decide (u = {})

/-- The setter `QUrl::setUserName`. -/
def QUrl.setUserName (u : QUrl) (userName : String) : QUrl := { u with userName := userName }

/-- The setter `QUrl::setPassword`. -/
def QUrl.setPassword (u : QUrl) (password : String) : QUrl := { u with password := password }

/-- The call `QUrl::addQueryItem`: the item is appended to the query; keys may repeat. -/
def QUrl.addQueryItem (u : QUrl) (key value : String) : QUrl :=
  { u with queryItems := u.queryItems ++ [(key, value)] }

/-! ## QNetworkRequest -/

/-- A `QNetworkRequest`: its target and its raw headers. -/
structure QNetworkRequest where
  url : QUrl
  rawHeaders : List (String × QByteArray) := []
  deriving DecidableEq, Repr

/-- The constructor `QNetworkRequest(const QUrl&)`: no header is set. -/
def QNetworkRequest.new (url : QUrl) : QNetworkRequest := { url := url }

/-- The call `QNetworkRequest::setRawHeader`: a header of the same name is replaced; an
empty value only removes the header. -/
def QNetworkRequest.setRawHeader (r : QNetworkRequest) (name : String) (value : QByteArray) :
    QNetworkRequest :=
  let others := r.rawHeaders.filter (fun h => h.1 != name)
  { r with rawHeaders := if value.isEmpty then others else others ++ [(name, value)] }

/-- The value of a raw header, `none` when the request has no such header. -/
def QNetworkRequest.rawHeader (r : QNetworkRequest) (name : String) : Option QByteArray :=
  (r.rawHeaders.find? (fun h => h.1 == name)).map (fun h => h.2)

/-! ## The platform object and the private data of a provider -/

/-- The interface `PlatformDependent`, restricted to the credential store the provider
calls. `Store` is the state of the store; every call may change it.
`loadCredentials` returns its result and the values it leaves in its two
output parameters. -/
structure PlatformDependent (Store : Type) where
  hasCredentials : Store → QUrl → Bool × Store
  loadCredentials : Store → QUrl → (Bool × String × String) × Store
  saveCredentials : Store → QUrl → String → String → Bool × Store

/-- The class `Provider::Private`. A null `m_internals` is `none`. -/
structure Private (Store : Type) where
  m_baseUrl : QUrl := {}
  m_icon : QUrl := {}
  m_name : String := ""
  m_credentialsUserName : String := ""
  m_credentialsPassword : String := ""
  m_personVersion : String := ""
  m_friendVersion : String := ""
  m_messageVersion : String := ""
  m_activityVersion : String := ""
  m_contentVersion : String := ""
  m_fanVersion : String := ""
  m_knowledgebaseVersion : String := ""
  m_eventVersion : String := ""
  m_commentVersion : String := ""
  m_internals : Option (PlatformDependent Store) := none

/-- The copy constructor `Private(const Private& other)`. Its initialiser list names
every member but `m_icon`, which is therefore default-constructed. -/
def Private.copy {Store : Type} (other : Private Store) : Private Store :=
  { m_baseUrl := other.m_baseUrl
    m_name := other.m_name
    m_internals := other.m_internals
    m_credentialsUserName := other.m_credentialsUserName
    m_credentialsPassword := other.m_credentialsPassword
    m_personVersion := other.m_personVersion
    m_friendVersion := other.m_friendVersion
    m_messageVersion := other.m_messageVersion
    m_activityVersion := other.m_activityVersion
    m_contentVersion := other.m_contentVersion
    m_fanVersion := other.m_fanVersion
    m_knowledgebaseVersion := other.m_knowledgebaseVersion
    m_eventVersion := other.m_eventVersion
    m_commentVersion := other.m_commentVersion }

/-- The constructor `Private(internals, baseUrl, name, icon, person, ...)`. With an empty
base URL the store is not touched; otherwise the credentials are taken from
the store when it has some and loading them succeeds. -/
def Private.create {Store : Type} (internals : PlatformDependent Store) (store : Store)
    (baseUrl : QUrl) (name : String) (icon : QUrl)
    (person friendV message activity content fan knowledgebase event comment : String) :
    Private Store × Store :=
  let d : Private Store :=
    { m_baseUrl := baseUrl, m_icon := icon, m_name := name, m_internals := some internals
      m_personVersion := person
      m_friendVersion := friendV
      m_messageVersion := message
      m_activityVersion := activity
      m_contentVersion := content
      m_fanVersion := fan
      m_knowledgebaseVersion := knowledgebase
      m_eventVersion := event
      m_commentVersion := comment }
  if d.m_baseUrl.isEmpty then (d, store)
  else
    let (has, store1) := internals.hasCredentials store d.m_baseUrl
    if has then
      let (loaded, store2) := internals.loadCredentials store1 d.m_baseUrl
      if loaded.1 then
        ({ d with m_credentialsUserName := loaded.2.1, m_credentialsPassword := loaded.2.2 },
          store2)
      else (d, store2)
    else (d, store1)

/-! ## Provider -/

/-- A `Provider`: its shared data pointer `d`. `shared` tells whether the private data
is referenced by another provider as well (reference count above one). -/
structure Provider (Store : Type) where
  d : Private Store
  shared : Bool := false

namespace Provider

variable {Store : Type}

/-- The access `d->` in a member function that is not `const`: shared private data is
cloned first. -/
def detach (p : Provider Store) : Provider Store :=
  if p.shared then { d := p.d.copy, shared := false } else p

/-- The constructor `Provider(internals, baseUrl, name, icon, person, ...)`. -/
def create (internals : PlatformDependent Store) (store : Store)
    (baseUrl : QUrl) (name : String) (icon : QUrl)
    (person friendV message activity content fan knowledgebase event comment : String) :
    Provider Store × Store :=
  let r := Private.create internals store baseUrl name icon
    person friendV message activity content fan knowledgebase event comment
  ({ d := r.1 }, r.2)

/-- The copy constructor `Provider(const Provider& other)`: both providers share the
private data afterwards. -/
def copy (other : Provider Store) : Provider Store × Provider Store :=
  ({ d := other.d, shared := true }, { d := other.d, shared := true })

/-- The getter `Provider::baseUrl`. -/
def baseUrl (p : Provider Store) : QUrl := p.d.m_baseUrl

/-- The getter `Provider::name`. -/
def name (p : Provider Store) : String := p.d.m_name

/-- The call `Provider::loadCredentials`; `none` is the dereference of a null
`m_internals`. The result holds the return value, the two output parameters,
the provider and the store. -/
def loadCredentials (p : Provider Store) (store : Store) :
    Option ((Bool × String × String) × Provider Store × Store) :=
  let p := p.detach
  match p.d.m_internals with
  | none => none
  | some internals =>
      let (loaded, store1) := internals.loadCredentials store p.d.m_baseUrl
      if loaded.1 then
        some ((true, loaded.2),
          { p with d := { p.d with m_credentialsUserName := loaded.2.1
                                   m_credentialsPassword := loaded.2.2 } }, store1)
      else some ((false, loaded.2), p, store1)

/-- The call `Provider::saveCredentials`; `none` is the dereference of a null
`m_internals`. -/
def saveCredentials (p : Provider Store) (store : Store) (user password : String) :
    Option (Bool × Provider Store × Store) :=
  let p := p.detach
  let p := { p with d := { p.d with m_credentialsUserName := user
                                    m_credentialsPassword := password } }
  match p.d.m_internals with
  | none => none
  | some internals =>
      let (ok, store1) := internals.saveCredentials store p.d.m_baseUrl user password
      some (ok, p, store1)

/-- The call `Provider::createUrl`. -/
def createUrl (p : Provider Store) (path : String) : QUrl × Provider Store :=
  let p := p.detach
  let url := QUrl.fromString (p.d.m_baseUrl.toString ++ path)
  if !isEmpty p.d.m_credentialsUserName then
    ((url.setUserName p.d.m_credentialsUserName).setPassword p.d.m_credentialsPassword, p)
  else (url, p)

/-- The call `Provider::createRequest(const QUrl&)`. -/
def createRequest (p : Provider Store) (url : QUrl) : QNetworkRequest × Provider Store :=
  let request := QNetworkRequest.new url
  let p := p.detach
  if !isEmpty p.d.m_credentialsUserName then
    let concatenated := p.d.m_credentialsUserName ++ ":" ++ p.d.m_credentialsPassword
    let data := toBase64 (toLocal8Bit concatenated)
    let headerData := "Basic " ++ fromLatin1 data
    (request.setRawHeader "Authorization" (toLocal8Bit headerData), p)
  else (request, p)

/-- The call `Provider::createRequest(const QString&)`. -/
def createRequestPath (p : Provider Store) (path : String) :
    QNetworkRequest × Provider Store :=
  let (url, p) := p.createUrl path
  p.createRequest url

end Provider

/-! ### Entities and the jobs a provider hands out

Only the members the provider reads are modelled. -/

/-- A `StringMap` (`QMap<QString, QString>`): its entries, at most one per key when
built with `insert`. The order of the entries (a `QMap` keeps them sorted by
key) is not modelled. -/
abbrev StringMap := List (String × String)

/-- The call `QMap::insert`: the value of an existing key is replaced. -/
def StringMap.insert (m : StringMap) (key value : String) : StringMap :=
  (key, value) :: m.filter (fun e => e.1 != key)

/-- The call `QMap::value`, `none` when the key is not in the map. -/
def StringMap.value (m : StringMap) (key : String) : Option String := m.lookup key

/-- A `Person`. -/
structure Person where
  id : String := ""

/-- A `Content`: id, name and attributes; `isValid` is what `isValid()` returns (the
class is declared outside the embedded files). -/
structure Content where
  id : String := ""
  name : String := ""
  attributes : StringMap := []
  isValid : Bool := false

/-- A `Category`; its id is a `QString`; `isValid` is what `isValid()` returns (the
class is declared outside the embedded files). -/
structure Category where
  id : String := ""
  isValid : Bool := false

/-- A `Distribution`; its id is a `uint`. -/
structure Distribution where
  id : Nat := 0

/-- A `License`; its id is a `uint`. -/
structure License where
  id : Nat := 0

/-- The enumeration `Provider::SortMode`. -/
inductive SortMode where
  | Newest
  | Alphabetical
  | Rating
  | Downloads
  deriving DecidableEq, Repr

/-- A `ListJob<T>` as it is constructed: the platform object and the request. -/
structure ListJob (T : Type) (Store : Type) where
  m_internals : Option (PlatformDependent Store)
  m_request : QNetworkRequest

/-- The conversion `QString(uint)`: the number goes through `QChar(uint)`, which keeps
its low 16 bits as one UTF-16 code unit, and the text is that one character.
(A code unit in the surrogate range has no `Char`; it is shown as U+FFFD.) -/
def stringOfUInt (rc : Nat) : String :=
  let ucs := rc % 65536
  String.singleton (if 0xD800 ≤ ucs ∧ ucs < 0xE000 then Char.ofNat 0xFFFD else Char.ofNat ucs)

namespace Provider

variable {Store : Type}

/-- The call `Provider::doRequestPersonList`. -/
def doRequestPersonList (p : Provider Store) (url : QUrl) :
    ListJob Person Store × Provider Store :=
  let (request, p) := p.createRequest url
  ({ m_internals := p.d.m_internals, m_request := request }, p)

/-- The call `Provider::requestFriends`. -/
def requestFriends (p : Provider Store) (id : String) (page pageSize : Int) :
    ListJob Person Store × Provider Store :=
  let (url, p) := p.createUrl ("friend/data/" ++ id)
  let url := url.addQueryItem "page" (numberInt page)
  let url := url.addQueryItem "pagesize" (numberInt pageSize)
  p.doRequestPersonList url

/-- The call `Provider::requestSentInvitations`. -/
def requestSentInvitations (p : Provider Store) (page pageSize : Int) :
    ListJob Person Store × Provider Store :=
  let (url, p) := p.createUrl "friend/sentinvitations"
  let url := url.addQueryItem "page" (numberInt page)
  let url := url.addQueryItem "pagesize" (numberInt pageSize)
  p.doRequestPersonList url

/-- The call `Provider::requestReceivedInvitations`. -/
def requestReceivedInvitations (p : Provider Store) (page pageSize : Int) :
    ListJob Person Store × Provider Store :=
  let (url, p) := p.createUrl "friend/receivedinvitations"
  let url := url.addQueryItem "page" (numberInt page)
  let url := url.addQueryItem "pagesize" (numberInt pageSize)
  p.doRequestPersonList url

/-- The call `Provider::searchContents` with eight arguments. -/
def searchContents (p : Provider Store) (categories : List Category) (person : String)
    (distributions : List Distribution) (licenses : List License) (search : String)
    (sortMode : SortMode) (page pageSize : Nat) : ListJob Content Store × Provider Store :=
  let (url, p) := p.createUrl "content/data"
  let categoryIds := categories.map (fun category => category.id)
  let url := url.addQueryItem "categories" (join "x" categoryIds)
  let distributionIds := distributions.map (fun distribution => stringOfUInt distribution.id)
  let url := url.addQueryItem "distribution" (join "," distributionIds)
  let licenseIds := licenses.map (fun license => stringOfUInt license.id)
  let url := url.addQueryItem "license" (join "," licenseIds)
  let url := if !isEmpty person then url.addQueryItem "user" person else url
  let url := url.addQueryItem "search" search
  let sortModeString :=
    match sortMode with
    | SortMode.Newest => "new"
    | SortMode.Alphabetical => "alpha"
    | SortMode.Rating => "high"
    | SortMode.Downloads => "down"
  let url := if !isEmpty sortModeString then url.addQueryItem "sortmode" sortModeString else url
  let url := url.addQueryItem "page" (numberUInt page)
  let url := url.addQueryItem "pagesize" (numberUInt pageSize)
  let (request, p) := p.createRequest url
  ({ m_internals := p.d.m_internals, m_request := request }, p)

/-- The call `Provider::searchContents` with five arguments. -/
def searchContents5 (p : Provider Store) (categories : List Category) (search : String)
    (sortMode : SortMode) (page pageSize : Nat) : ListJob Content Store × Provider Store :=
  p.searchContents categories "" [] [] search sortMode page pageSize

/-- The call `Provider::searchContentsByPerson`. -/
def searchContentsByPerson (p : Provider Store) (categories : List Category)
    (person search : String) (sortMode : SortMode) (page pageSize : Nat) :
    ListJob Content Store × Provider Store :=
  p.searchContents categories person [] [] search sortMode page pageSize

/-- The getter `Provider::activityServiceVersion`. -/
def activityServiceVersion (p : Provider Store) : String := p.d.m_activityVersion
/-- The getter `Provider::commentServiceVersion`. -/
def commentServiceVersion (p : Provider Store) : String := p.d.m_commentVersion
/-- The getter `Provider::contentServiceVersion`. -/
def contentServiceVersion (p : Provider Store) : String := p.d.m_contentVersion
/-- The getter `Provider::fanServiceVersion`. -/
def fanServiceVersion (p : Provider Store) : String := p.d.m_fanVersion
/-- The getter `Provider::friendServiceVersion`. -/
def friendServiceVersion (p : Provider Store) : String := p.d.m_friendVersion
/-- The getter `Provider::knowledgebaseServiceVersion`. -/
def knowledgebaseServiceVersion (p : Provider Store) : String := p.d.m_knowledgebaseVersion
/-- The getter `Provider::messageServiceVersion`. -/
def messageServiceVersion (p : Provider Store) : String := p.d.m_messageVersion
/-- The getter `Provider::personServiceVersion`. -/
def personServiceVersion (p : Provider Store) : String := p.d.m_personVersion

/-- The test `Provider::hasActivityService`. -/
def hasActivityService (p : Provider Store) : Bool := !isEmpty p.d.m_activityVersion
/-- The test `Provider::hasCommentService`. -/
def hasCommentService (p : Provider Store) : Bool := !isEmpty p.d.m_commentVersion
/-- The test `Provider::hasContentService`. -/
def hasContentService (p : Provider Store) : Bool := !isEmpty p.d.m_contentVersion
/-- The test `Provider::hasFanService`. -/
def hasFanService (p : Provider Store) : Bool := !isEmpty p.d.m_fanVersion
/-- The test `Provider::hasFriendService`. -/
def hasFriendService (p : Provider Store) : Bool := !isEmpty p.d.m_friendVersion
/-- The test `Provider::hasKnowledgebaseService`. -/
def hasKnowledgebaseService (p : Provider Store) : Bool := !isEmpty p.d.m_knowledgebaseVersion
/-- The test `Provider::hasMessageService`. -/
def hasMessageService (p : Provider Store) : Bool := !isEmpty p.d.m_messageVersion
/-- The test `Provider::hasPersonService`. -/
def hasPersonService (p : Provider Store) : Bool := !isEmpty p.d.m_personVersion

end Provider

/-! ## KnowledgeBaseEntryJob

The entity type `E` (`KnowledgeBaseEntry`) and the metadata type `M`
(`KnowledgeBaseEntry::Metadata`) are declared outside the embedded files; the
job never looks inside them and is generic in both. The parser
(`KnowledgeBaseEntry::Parser`) is a parameter: a function from the text to
the parsed entity and the metadata that `lastMetadata` reports afterwards. -/

/-- The parser object: `parse` and the `lastMetadata` it leaves behind. -/
abbrev Parser (E M : Type) := String → E × M

/-- The finished transport job that is handed to `slotJobResult`. -/
structure KJob where
  error : Int
  errorText : String
  deriving DecidableEq, Repr

/-- What a job does to the outside, in the order in which it happens. -/
inductive Effect (E M : Type) where
  /-- The call `QTimer::singleShot(0, this, SLOT(doWork()))`. -/
  | singleShot
  /-- The call `KIO::get(url, ...)`: a transport exchange begins. -/
  | get (url : QUrl)
  /-- The call `parser.parse(text)`. -/
  | parse (text : String)
  /-- The call `emitResult()`, with what the accessors of the job return at that
  moment. -/
  | emitResult (error : Int) (errorText : String) (knowledgeBase : E) (metadata : M)

/-- A `KnowledgeBaseEntryJob`, with the error state of its base class `KJob`.
`m_job` is the number of the running transport job (`none` is the null
pointer); `pending` counts the single-shot timers that have not fired yet. -/
structure KnowledgeBaseEntryJob (E M : Type) where
  m_url : QUrl := {}
  m_job : Option Nat := none
  m_data : QByteArray := []
  m_knowledgeBase : E
  m_metadata : M
  error : Int := 0
  errorText : String := ""
  pending : Nat := 0
  effects : List (Effect E M) := []

/-- The characters `QString::fromUtf8` decodes: well-formed sequences of one to four
bytes give their code point, a byte that does not begin one gives U+FFFD. The
first argument bounds the number of characters. -/
def fromUtf8Chars : Nat → QByteArray → List Char
  | 0, _ => []
  | _, [] => []
  | n + 1, b :: rest =>
      let cont := fun (x : Nat) => decide (0x80 ≤ x ∧ x < 0xC0)
      let c1 := rest.getD 0 0
      let c2 := rest.getD 1 0
      let c3 := rest.getD 2 0
      let two := (b - 0xC0) * 64 + (c1 - 0x80)
      let three := (b - 0xE0) * 4096 + (c1 - 0x80) * 64 + (c2 - 0x80)
      let four := (b - 0xF0) * 262144 + (c1 - 0x80) * 4096 + (c2 - 0x80) * 64 + (c3 - 0x80)
      if b < 0x80 then Char.ofNat b :: fromUtf8Chars n rest
      else if 0xC2 ≤ b ∧ b < 0xE0 ∧ cont c1 then
        Char.ofNat two :: fromUtf8Chars n (rest.drop 1)
      else if 0xE0 ≤ b ∧ b < 0xF0 ∧ cont c1 ∧ cont c2 ∧ 0x800 ≤ three
          ∧ ¬ (0xD800 ≤ three ∧ three < 0xE000) then
        Char.ofNat three :: fromUtf8Chars n (rest.drop 2)
      else if 0xF0 ≤ b ∧ b < 0xF5 ∧ cont c1 ∧ cont c2 ∧ cont c3 ∧ 0x10000 ≤ four
          ∧ four < 0x110000 then
        Char.ofNat four :: fromUtf8Chars n (rest.drop 3)
      else Char.ofNat 0xFFFD :: fromUtf8Chars n rest

/-- The conversion `QString::fromUtf8(const char*)`: the text ends before the first
zero byte. -/
def fromUtf8 (data : QByteArray) : String :=
  let str := data.takeWhile (fun b => b != 0)
  String.mk (fromUtf8Chars str.length str)

namespace KnowledgeBaseEntryJob

variable {E M : Type}

/-- The constructor `KnowledgeBaseEntryJob()`: `m_job` is null, the entity and the
metadata are default-constructed, the job has no error. -/
def new [Inhabited E] [Inhabited M] : KnowledgeBaseEntryJob E M :=
  { m_knowledgeBase := default, m_metadata := default }

/-- The call `KnowledgeBaseEntryJob::setUrl`. -/
def setUrl (j : KnowledgeBaseEntryJob E M) (url : QUrl) : KnowledgeBaseEntryJob E M :=
  { j with m_url := url }

/-- The call `KnowledgeBaseEntryJob::start`: a single-shot timer for `doWork`. -/
def start (j : KnowledgeBaseEntryJob E M) : KnowledgeBaseEntryJob E M :=
  { j with pending := j.pending + 1, effects := j.effects ++ [Effect.singleShot] }

/-- The getter `KnowledgeBaseEntryJob::knowledgeBase`. -/
def knowledgeBase (j : KnowledgeBaseEntryJob E M) : E := j.m_knowledgeBase

/-- The getter `KnowledgeBaseEntryJob::metadata`. -/
def metadata (j : KnowledgeBaseEntryJob E M) : M := j.m_metadata

/-- The number of transport exchanges a list of effects begins. -/
def countGets : List (Effect E M) → Nat
  | [] => 0
  | Effect.get _ :: rest => countGets rest + 1
  | _ :: rest => countGets rest

/-- The slot `KnowledgeBaseEntryJob::doWork`: `KIO::get` on the URL of the job. -/
def doWork (j : KnowledgeBaseEntryJob E M) : KnowledgeBaseEntryJob E M :=
  { j with m_job := some (countGets j.effects), effects := j.effects ++ [Effect.get j.m_url] }

/-- The call `KJob::emitResult`. -/
def emitResult (j : KnowledgeBaseEntryJob E M) : KnowledgeBaseEntryJob E M :=
  { j with effects := j.effects ++
      [Effect.emitResult j.error j.errorText j.m_knowledgeBase j.m_metadata] }

/-- The slot `KnowledgeBaseEntryJob::slotJobResult`. -/
def slotJobResult (parser : Parser E M) (j : KnowledgeBaseEntryJob E M) (job : KJob) :
    KnowledgeBaseEntryJob E M :=
  let j := { j with m_job := none }
  let j :=
    if job.error ≠ 0 then
      { j with error := job.error, errorText := job.errorText }
    else
      let text := fromUtf8 j.m_data
      let parsed := parser text
      { j with m_knowledgeBase := parsed.1, m_metadata := parsed.2
               effects := j.effects ++ [Effect.parse text] }
  j.emitResult

/-- The slot `KnowledgeBaseEntryJob::slotJobData`. -/
def slotJobData (j : KnowledgeBaseEntryJob E M) (data : QByteArray) :
    KnowledgeBaseEntryJob E M :=
  { j with m_data := j.m_data ++ data }

end KnowledgeBaseEntryJob

/-- What happens to a job: calls of its public members, a single-shot timer
firing in the event loop, and the two signals of the transport job. -/
inductive JobEvent where
  | setUrl (url : QUrl)
  | start
  | timeout
  | data (chunk : QByteArray)
  | result (job : KJob)

namespace KnowledgeBaseEntryJob

variable {E M : Type}

/-- One event. A timer fires only when one is pending, and then runs `doWork`. -/
def step (parser : Parser E M) (j : KnowledgeBaseEntryJob E M) :
    JobEvent → KnowledgeBaseEntryJob E M
  | JobEvent.setUrl url => j.setUrl url
  | JobEvent.start => j.start
  | JobEvent.timeout => if j.pending = 0 then j else { j with pending := j.pending - 1 }.doWork
  | JobEvent.data chunk => j.slotJobData chunk
  | JobEvent.result job => j.slotJobResult parser job

/-- A sequence of events. -/
def run (parser : Parser E M) (j : KnowledgeBaseEntryJob E M) (events : List JobEvent) :
    KnowledgeBaseEntryJob E M :=
  events.foldl (step parser) j

end KnowledgeBaseEntryJob

/-- Modelled from the spec: the envelope of a response (status string, status
code, message), standing for `KnowledgeBaseEntry::Metadata`, whose declaration
is not among the embedded files. -/
structure Metadata where
  statusString : String := ""
  statusCode : Int := 0
  message : String := ""
  deriving DecidableEq, Repr, Inhabited

/-! ## Request-building operations as data

Used to speak about arbitrary sequences of request-building calls. -/

/-- The value of a Basic `Authorization` header for a credential pair: the
bytes of `Basic ` and the base64 text of `user:password`. -/
def basicAuthorization (user password : String) : QByteArray :=
  [66, 97, 115, 105, 99, 32] ++ toBase64 (toLocal8Bit (user ++ ":" ++ password))

/-- A request-building call on a provider. -/
inductive BuildOp where
  | createUrl (path : String)
  | createRequest (url : QUrl)
  | createRequestPath (path : String)
  | requestFriends (id : String) (page pageSize : Int)
  | requestSentInvitations (page pageSize : Int)
  | requestReceivedInvitations (page pageSize : Int)
  | searchContents (categories : List Category) (person : String)
      (distributions : List Distribution) (licenses : List License) (search : String)
      (sortMode : SortMode) (page pageSize : Nat)

/-- What a request-building call hands back. -/
inductive Built where
  /-- A URL made by `createUrl`. -/
  | url (u : QUrl)
  /-- A request made by `createRequest` for a URL of the caller. -/
  | request (r : QNetworkRequest)
  /-- A request whose URL was made by `createUrl` as well. -/
  | addressed (r : QNetworkRequest)

/-- A built value carries a credential pair: a URL in its user information, a
request in its `Authorization` header. -/
def Built.carries (user password : String) : Built → Prop
  | Built.url u => u.userName = user ∧ u.password = password
  | Built.request r => r.rawHeader "Authorization" = some (basicAuthorization user password)
  | Built.addressed r =>
      r.url.userName = user ∧ r.url.password = password
        ∧ r.rawHeader "Authorization" = some (basicAuthorization user password)

namespace Provider

variable {Store : Type}

/-- One request-building call. -/
def perform (p : Provider Store) : BuildOp → Built × Provider Store
  | BuildOp.createUrl path => let r := p.createUrl path; (Built.url r.1, r.2)
  | BuildOp.createRequest url => let r := p.createRequest url; (Built.request r.1, r.2)
  | BuildOp.createRequestPath path =>
      let r := p.createRequestPath path; (Built.addressed r.1, r.2)
  | BuildOp.requestFriends id page pageSize =>
      let r := p.requestFriends id page pageSize; (Built.addressed r.1.m_request, r.2)
  | BuildOp.requestSentInvitations page pageSize =>
      let r := p.requestSentInvitations page pageSize; (Built.addressed r.1.m_request, r.2)
  | BuildOp.requestReceivedInvitations page pageSize =>
      let r := p.requestReceivedInvitations page pageSize; (Built.addressed r.1.m_request, r.2)
  | BuildOp.searchContents categories person distributions licenses search sortMode page
      pageSize =>
      let r := p.searchContents categories person distributions licenses search sortMode page
        pageSize
      (Built.addressed r.1.m_request, r.2)

/-- A sequence of request-building calls: what each call built, and the
provider afterwards. -/
def build (p : Provider Store) : List BuildOp → List Built × Provider Store
  | [] => ([], p)
  | op :: ops =>
      let r := p.perform op
      let rs := r.2.build ops
      (r.1 :: rs.1, rs.2)

/-- Two private data agree on everything a caller can read back and on
everything a request is built from: base URL, name, credential pair, the nine
version strings and the platform object. -/
def sameConfiguration (a b : Private Store) : Prop :=
  a.m_baseUrl = b.m_baseUrl ∧ a.m_name = b.m_name
    ∧ a.m_credentialsUserName = b.m_credentialsUserName
    ∧ a.m_credentialsPassword = b.m_credentialsPassword
    ∧ a.m_personVersion = b.m_personVersion
    ∧ a.m_friendVersion = b.m_friendVersion
    ∧ a.m_messageVersion = b.m_messageVersion
    ∧ a.m_activityVersion = b.m_activityVersion
    ∧ a.m_contentVersion = b.m_contentVersion
    ∧ a.m_fanVersion = b.m_fanVersion
    ∧ a.m_knowledgebaseVersion = b.m_knowledgebaseVersion
    ∧ a.m_eventVersion = b.m_eventVersion
    ∧ a.m_commentVersion = b.m_commentVersion
    ∧ a.m_internals = b.m_internals

end Provider

/-! ## Sample values -/

/-- A credential store that holds nothing and accepts everything. -/
def emptyStore : PlatformDependent Unit :=
  { hasCredentials := fun s _ => (false, s)
    loadCredentials := fun s _ => ((false, "", ""), s)
    saveCredentials := fun s _ _ _ => (true, s) }

/-- A provider at `http://example.org/v1/` without credentials. -/
def sampleProvider : Provider Unit :=
  { d := { m_baseUrl := QUrl.fromString "http://example.org/v1/", m_name := "example"
           m_internals := some emptyStore } }

/-- The same provider after `user` and `pass` were stored as its credentials. -/
def sampleProviderWithCredentials : Provider Unit :=
  { d := { sampleProvider.d with
             m_credentialsUserName := "user", m_credentialsPassword := "pass" } }

/-- A parser that reports the envelope `failed`, 200, `not found` and no entity. -/
def failedEnvelopeParser : Parser String Metadata :=
  fun _ => ("", { statusString := "failed", statusCode := 200, message := "not found" })

/-! ## Definitions used to state the theorems -/

namespace Provider

variable {Store : Type}

/-- The `sortmode` items among the query items that `searchContents` adds to
the URL it got from `createUrl`. -/
def sortModeItems (p : Provider Store) (categories : List Category) (person : String)
    (distributions : List Distribution) (licenses : List License) (search : String)
    (sortMode : SortMode) (page pageSize : Nat) : List (String × String) :=
  (((p.searchContents categories person distributions licenses search sortMode page
      pageSize).1.m_request.url.queryItems).drop
    (p.createUrl "content/data").1.queryItems.length).filter (fun kv => kv.1 == "sortmode")

end Provider

/-- A provider whose base address has no trailing slash. -/
def slashlessProvider : Provider Unit :=
  { d := { m_baseUrl := QUrl.fromString "http://example.org/v1", m_name := "example"
           m_internals := some emptyStore } }

namespace KnowledgeBaseEntryJob

variable {E M : Type}

/-- The number of result signals in a list of effects. -/
def countResults : List (Effect E M) → Nat
  | [] => 0
  | Effect.emitResult _ _ _ _ :: rest => countResults rest + 1
  | _ :: rest => countResults rest

/-- The number of parser calls in a list of effects. -/
def countParses : List (Effect E M) → Nat
  | [] => 0
  | Effect.parse _ :: rest => countParses rest + 1
  | _ :: rest => countParses rest

end KnowledgeBaseEntryJob

/-- An event is the result signal of a transport job. -/
def JobEvent.isResult : JobEvent → Bool
  | JobEvent.result _ => true
  | _ => false

/-- An event is the result signal of a transport job that failed. -/
def JobEvent.isFailure : JobEvent → Bool
  | JobEvent.result job => decide (job.error ≠ 0)
  | _ => false

/-- The envelope of the scenario, as the bytes of a response. -/
def failedEnvelope : QByteArray :=
  toLocal8Bit "\x7b\"status\":\"failed\",\"statuscode\":200,\"message\":\"not found\"\x7d"

/-! ## The JSON format parser

The parser (`jsonparser.h`, `parser.cpp`) and the entity classes are not among
the embedded files; only their test suite is. This section models them from
the specification: the envelope, the decoder contract of an entity type, and
the parse of a single item or of a list. A document is taken as its tree; the
lexical layer (text to tree) is not modelled. -/

/-- Modelled from the spec: a JSON document (the wire envelope and its
payload) as a tree, the input of the parser of `jsonparser.h`, which is not
among the embedded files. A number without fraction is `num`; any other
number is kept as it is written, in `real`. An object keeps its members in
the order of the text. -/
inductive Json where
  | null
  | bool (b : Bool)
  | num (n : Int)
  | real (text : String)
  | str (s : String)
  | arr (items : List Json)
  | obj (members : List (String × Json))

/-- Modelled from the spec: a string between quotes, `"` and `\` escaped. -/
def quote (s : String) : String :=
  String.mk ([Char.ofNat 34]
    ++ s.data.flatMap (fun c =>
        if c = Char.ofNat 34 ∨ c = Char.ofNat 92 then [Char.ofNat 92, c] else [c])
    ++ [Char.ofNat 34])

mutual
/-- Modelled from the spec: the compact JSON text of a tree, which is how a
structured value is copied verbatim into a map of strings. -/
def Json.render : Json → String
  | Json.null => "null"
  | Json.bool b => if b then "true" else "false"
  | Json.num n => toString n
  | Json.real text => text
  | Json.str s => quote s
  | Json.arr items => "[" ++ renderItems items ++ "]"
  | Json.obj members => "\x7b" ++ renderMembers members ++ "\x7d"
/-- Modelled from the spec: the items of an array, separated by commas. -/
def renderItems : List Json → String
  | [] => ""
  | j :: js => j.render ++ (if js.isEmpty then "" else ",") ++ renderItems js
/-- Modelled from the spec: the members of an object, separated by commas. -/
def renderMembers : List (String × Json) → String
  | [] => ""
  | (key, value) :: ms =>
      quote key ++ ":" ++ value.render ++ (if ms.isEmpty then "" else ",") ++ renderMembers ms
end

/-- Modelled from the spec: a wire value as a string, as it is copied into a
text field or into the extended attributes (a map from string to string): a
string is itself, a number its digits, null the empty string, a structured
value its JSON text. -/
def Json.text : Json → String
  | Json.null => ""
  | Json.str s => s
  | j => j.render

/-- Modelled from the spec: the type of a recognised field of an entity,
text (`QString`) or integer. -/
inductive FieldType where
  | text
  | number
  deriving DecidableEq, Repr

/-- Modelled from the spec: the value of a typed field. The spec fixes no
width for integers. -/
inductive FieldValue where
  | text (s : String)
  | number (n : Int)
  deriving DecidableEq, Repr

/-- Modelled from the spec: the zero/empty value of a field type. -/
def FieldType.empty : FieldType → FieldValue
  | FieldType.text => FieldValue.text ""
  | FieldType.number => FieldValue.number 0

/-- Modelled from the spec: the coercion of a wire value to a field type. A
text field takes the wire value as a string (a number as its decimal
digits); an integer field takes a number without fraction; null, and a value
that cannot be coerced, give the empty value of the type. -/
def coerce : FieldType → Json → FieldValue
  | FieldType.text, value => FieldValue.text value.text
  | FieldType.number, Json.num n => FieldValue.number n
  | FieldType.number, _ => FieldValue.number 0

/-- Modelled from the spec: the value of a recognised field given what the
wire object binds to its key: a missing field has the empty value of its
type. -/
def fieldValue (ty : FieldType) : Option Json → FieldValue
  | none => ty.empty
  | some value => coerce ty value

/-- Modelled from the spec: the decoder capability of an entity type (the
Entity Decoder Contract; the per-type parsers are not among the embedded
files): the wire key and type of the identity field, the recognised wire
keys with the types of their fields (`fieldNames`), and the nested
multi-valued wire keys with the tag of the type of their sub-entities. -/
structure EntityType where
  idKey : String := "id"
  idType : FieldType := FieldType.text
  fields : List (String × FieldType) := []
  nested : List (String × String) := []

/-- Modelled from the spec: the recognised field set of an entity type. -/
def EntityType.recognised (ty : EntityType) : List String :=
  ty.idKey :: (ty.fields.map Prod.fst ++ ty.nested.map Prod.fst)

/-- Modelled from the spec: a decoded entity (the entity classes `category.h`,
`person.h`, ... are not among the embedded files): identity, typed fields,
nested sequences of sub-entities and the extended attributes (string to
string). -/
inductive Entity where
  | mk (id : FieldValue) (fields : List (String × FieldValue))
      (nested : List (String × List Entity)) (extendedAttributes : List (String × String))

namespace Entity

/-- Modelled from the spec: the identity of an entity. -/
def id : Entity → FieldValue
  | mk id _ _ _ => id

/-- Modelled from the spec: the typed fields of an entity, by wire key. -/
def fields : Entity → List (String × FieldValue)
  | mk _ fields _ _ => fields

/-- Modelled from the spec: the nested sequences of an entity, by wire key. -/
def nested : Entity → List (String × List Entity)
  | mk _ _ nested _ => nested

/-- Modelled from the spec: the extended-attributes map of an entity. -/
def extendedAttributes : Entity → List (String × String)
  | mk _ _ _ extendedAttributes => extendedAttributes

/-- Modelled from the spec: one typed field of an entity. -/
def field (e : Entity) (key : String) : Option FieldValue := e.fields.lookup key

/-- Modelled from the spec: one nested sequence of an entity; empty when the
wire object had none. -/
def children (e : Entity) (key : String) : List Entity := (e.nested.lookup key).getD []

/-- Modelled from the spec: the accessor `extendedAttribute(key)`; empty for a key
that is not in the map. -/
def extendedAttribute (e : Entity) (key : String) : String :=
  (e.extendedAttributes.lookup key).getD ""

/-- Modelled from the spec: the test `isValid`: the entity has an identity. -/
def isValid (e : Entity) : Bool :=
  match e.id with
  | FieldValue.text s => !isEmpty s
  | FieldValue.number _ => true

end Entity

/-- Modelled from the spec: the typed fields of a wire object, in the order of
the recognised keys. -/
def decodeFields (members : List (String × Json)) (fields : List (String × FieldType)) :
    List (String × FieldValue) :=
  fields.map (fun f => (f.1, fieldValue f.2 (members.lookup f.1)))

/-- Modelled from the spec: the extended attributes of a wire object: every
member whose key is not recognised, copied as a string. -/
def extendedOf (recognised : List String) (members : List (String × Json)) :
    List (String × String) :=
  (members.filter (fun m => !recognised.contains m.1)).map (fun m => (m.1, m.2.text))

mutual
/-- Modelled from the spec: `fromFields` for one payload element (the decoders
of `parser.cpp` are not among the embedded files). Every object decodes; an
element that is not an object is malformed (`none`). -/
def decodeEntity (reg : String → EntityType) (ty : EntityType) : Json → Option Entity
  | Json.obj members =>
      some (Entity.mk (fieldValue ty.idType (members.lookup ty.idKey))
        (decodeFields members ty.fields) (decodeNested reg ty.nested members)
        (extendedOf ty.recognised members))
  | _ => none
/-- Modelled from the spec: the nested multi-valued members of a wire object:
the elements of each array are decoded by the contract of the sub-entity
type; a value that is not an array gives the empty sequence. -/
def decodeNested (reg : String → EntityType) (nestedKeys : List (String × String)) :
    List (String × Json) → List (String × List Entity)
  | [] => []
  | (key, value) :: rest =>
      match nestedKeys.lookup key with
      | none => decodeNested reg nestedKeys rest
      | some tag =>
          match value with
          | Json.arr items =>
              (key, decodeList reg (reg tag) items) :: decodeNested reg nestedKeys rest
          | _ => (key, []) :: decodeNested reg nestedKeys rest
/-- Modelled from the spec: the elements of a list payload, in source order;
a malformed element is skipped. -/
def decodeList (reg : String → EntityType) (ty : EntityType) : List Json → List Entity
  | [] => []
  | j :: js =>
      match decodeEntity reg ty j with
      | some e => e :: decodeList reg ty js
      | none => decodeList reg ty js
end

/-- Modelled from the spec: an element of a payload is well-formed when it is
a JSON object. -/
def Json.isObject : Json → Bool
  | Json.obj _ => true
  | _ => false

/-- Modelled from the spec: the error kind `ParseError`, with what was wrong. -/
inductive ParseError where
  | wrongRoot
  | badEnvelope (key : String)
  | badPayload
  deriving DecidableEq, Repr

/-- Modelled from the spec: the envelope reports success: status `ok`, or
status code 100. -/
def Metadata.isSuccess (md : Metadata) : Bool :=
  md.statusString == "ok" || md.statusCode == 100

/-- Modelled from the spec: the payload section of an envelope: the value of
`data`, when there is one and it is not null. -/
def payloadOf (members : List (String × Json)) : Option Json :=
  match members.lookup "data" with
  | none => none
  | some Json.null => none
  | some data => some data

/-- Modelled from the spec: `decodeEnvelope` (part of the parser of
`jsonparser.h`, which is not among the embedded files): the root is an object
with `status` (string), `statuscode` (integer), `message` (string or null, or
absent) and an optional `data`; the result is the envelope and the payload,
if there is one. -/
def decodeEnvelope : Json → Except ParseError (Metadata × Option Json)
  | Json.obj members =>
      match members.lookup "status", members.lookup "statuscode" with
      | some (Json.str status), some (Json.num code) =>
          let payload := payloadOf members
          match members.lookup "message" with
          | none =>
              Except.ok ({ statusString := status, statusCode := code, message := "" }, payload)
          | some Json.null =>
              Except.ok ({ statusString := status, statusCode := code, message := "" }, payload)
          | some (Json.str message) =>
              Except.ok
                ({ statusString := status, statusCode := code, message := message }, payload)
          | some _ => Except.error (ParseError.badEnvelope "message")
      | some (Json.str _), _ => Except.error (ParseError.badEnvelope "statuscode")
      | _, _ => Except.error (ParseError.badEnvelope "status")
  | _ => Except.error ParseError.wrongRoot

/-- Modelled from the spec: the parser object `JsonParser<T>` after `parse`: the
envelope it read, the entities it decoded, and the error, if any. -/
structure JsonParser where
  metadata : Metadata := {}
  itemList : List Entity := []
  error : Option ParseError := none

/-- Modelled from the spec: `parse(raw, entityTypeTag)` of the parser of
`jsonparser.h`, which is not among the embedded files. An envelope that does
not report success yields no entities; an array payload is decoded element by
element, skipping malformed elements; an object payload is the one item; any
other payload is a parse error. -/
def JsonParser.parse (reg : String → EntityType) (ty : EntityType) (doc : Json) : JsonParser :=
  match decodeEnvelope doc with
  | Except.error e => { error := some e }
  | Except.ok (md, payload) =>
      if !md.isSuccess then { metadata := md }
      else
        match payload with
        | none => { metadata := md }
        | some (Json.arr items) => { metadata := md, itemList := decodeList reg ty items }
        | some (Json.obj members) =>
            match decodeEntity reg ty (Json.obj members) with
            | some e => { metadata := md, itemList := [e] }
            | none => { metadata := md, error := some ParseError.badPayload }
        | some _ => { metadata := md, error := some ParseError.badPayload }

/-- Modelled from the spec: the accessor `item()`: the first decoded entity. -/
def JsonParser.item (p : JsonParser) : Option Entity := p.itemList.head?

/-! ### Entity types and documents of the test suite

The recognised keys of a type are the wire keys behind the accessors that the
test suite calls on it; the type of a field is the type the test compares it
with. -/

/-- Modelled from the spec: the decoder of `Category`: a string id and a name. -/
def categoryType : EntityType :=
  { fields := [("name", FieldType.text)] }

/-- Modelled from the spec: the decoder of `Distribution`; the test compares its id
with `2200u`, an unsigned integer. -/
def distributionType : EntityType :=
  { idType := FieldType.number, fields := [("name", FieldType.text)] }

/-- Modelled from the spec: the decoder of `License`; the test compares its id with
`3u`, an unsigned integer. -/
def licenseType : EntityType :=
  { idType := FieldType.number, fields := [("name", FieldType.text), ("link", FieldType.text)] }

/-- Modelled from the spec: the decoder of `Icon`: width, height and link. -/
def iconType : EntityType :=
  { fields := [("width", FieldType.number), ("height", FieldType.number),
               ("link", FieldType.text)] }

/-- Modelled from the spec: the decoder of one video of a `Content`: its link. -/
def videoType : EntityType :=
  { fields := [("link", FieldType.text)] }

/-- Modelled from the spec: the decoder of `Message`. -/
def messageType : EntityType :=
  { fields := [("message from", FieldType.text), ("messageto", FieldType.text),
               ("senddate", FieldType.text), ("status", FieldType.number),
               ("subject", FieldType.text), ("body", FieldType.text)] }

/-- Modelled from the spec: the decoder of `Person`; its identity is `personid`. -/
def personType : EntityType :=
  { idKey := "personid"
    fields := [("firstname", FieldType.text), ("lastname", FieldType.text),
               ("birthday", FieldType.text), ("country", FieldType.text),
               ("latitude", FieldType.text), ("longitude", FieldType.text),
               ("avatarpic", FieldType.text), ("homepage", FieldType.text),
               ("city", FieldType.text)] }

/-- Modelled from the spec: the decoder of `Comment`; its children are comments. -/
def commentType : EntityType :=
  { fields := [("subject", FieldType.text), ("text", FieldType.text),
               ("childcount", FieldType.number), ("user", FieldType.text),
               ("date", FieldType.text), ("score", FieldType.number)]
    nested := [("children", "comment")] }

/-- Modelled from the spec: the decoder of `Content`, with its icons and videos. -/
def contentType : EntityType :=
  { fields := [("name", FieldType.text), ("score", FieldType.number),
               ("downloads", FieldType.number), ("comments", FieldType.number),
               ("created", FieldType.text), ("changed", FieldType.text)]
    nested := [("icon", "icon"), ("video", "video")] }

/-- Modelled from the spec: a generic entity with the recognised fields `id` and
`name` (the scenario of the testable properties). -/
def genericType : EntityType :=
  { fields := [("name", FieldType.text)] }

/-- Modelled from the spec: the entity type behind a tag. -/
def registry (tag : String) : EntityType :=
  if tag = "category" then categoryType
  else if tag = "distribution" then distributionType
  else if tag = "license" then licenseType
  else if tag = "icon" then iconType
  else if tag = "video" then videoType
  else if tag = "message" then messageType
  else if tag = "person" then personType
  else if tag = "comment" then commentType
  else if tag = "content" then contentType
  else genericType

/-- The envelope `startString ... endString` of the tests around a payload. -/
def okEnvelope (data : Json) : Json :=
  Json.obj [("status", Json.str "ok"), ("statuscode", Json.num 100), ("message", Json.null),
    ("data", data)]

/-- The document of `testMetadata`: an envelope without payload. -/
def metadataDocument : Json :=
  Json.obj [("status", Json.str "ok"), ("statuscode", Json.num 100), ("message", Json.null)]

/-- The document of `testCategory`. -/
def categoryDocument : Json :=
  okEnvelope (Json.arr [
    Json.obj [("id", Json.num 1), ("name", Json.str "KDE Wallpaper 640x480")],
    Json.obj [("id", Json.num 2), ("name", Json.str "KDE Wallpaper 800x600")],
    Json.obj [("id", Json.num 3), ("name", Json.str "KDE Wallpaper 1024x768")],
    Json.obj [("id", Json.num 4), ("name", Json.str "KDE Wallpaper 1280x1024")]])

/-- The document of `testDistribution`. -/
def distributionDocument : Json :=
  okEnvelope (Json.arr [
    Json.obj [("id", Json.num 0), ("name", Json.null)],
    Json.obj [("id", Json.num 2200), ("name", Json.str "Arch")],
    Json.obj [("id", Json.num 2000), ("name", Json.str "Ark")],
    Json.obj [("id", Json.num 1100), ("name", Json.str "Debian")]])

/-- The document of `testLicense`. -/
def licenseDocument : Json :=
  okEnvelope (Json.arr [
    Json.obj [("id", Json.num 1000), ("name", Json.null), ("link", Json.null)],
    Json.obj [("id", Json.num 3), ("name", Json.str "Artistic 2.0"),
      ("link", Json.str "https://dev.perl.org/perl6/rfc/346.html")],
    Json.obj [("id", Json.num 6), ("name", Json.str "BSD"),
      ("link", Json.str "https://www.opensource.org/licenses/bsd-license.php")]])

/-- The document of `testMessage`. -/
def messageDocument : Json :=
  okEnvelope (Json.arr [
    Json.obj [("details", Json.str "full"), ("id", Json.num 8490),
      ("message from", Json.str "testy"), ("firstname", Json.str "Laszlo"),
      ("lastname", Json.str "Papp"),
      ("profilepage",
        Json.str "https://www.opendesktop.org/usermanager/search.php?username=lpapp"),
      ("messageto", Json.str "lpapp"), ("senddate", Json.str "2008-08-10T16:03:59+02:00"),
      ("status", Json.num 1), ("statustext", Json.null),
      ("subject", Json.str "test message"),
      ("body", Json.str "Sorry for bothering but did you ...")]])

/-- The document of `testPerson`. -/
def personDocument : Json :=
  okEnvelope (Json.arr [
    Json.obj [("details", Json.str "full"), ("personid", Json.str "lpapp"),
      ("privacy", Json.num 1),
      ("privacytext", Json.str "visible only for registered users"),
      ("firstname", Json.str "Laszlo"), ("lastname", Json.str "Papp"),
      ("gender", Json.str "male"), ("communityrole", Json.str "developer"),
      ("homepage", Json.null), ("company", Json.str "company"),
      ("avatarpic", Json.str "https://www.opendesktop.org/usermanager/nopic.png"),
      ("avatarpicfound", Json.num 1),
      ("bigavatarpic", Json.str "https://www.opendesktop.org/usermanager/nopic.png"),
      ("bigavatarpicfound", Json.num 1), ("birthday", Json.str "1985-12-02"),
      ("jobstatus", Json.str "working"), ("city", Json.str "Helsinki"),
      ("country", Json.str "Finland"), ("longitude", Json.real "24.9375"),
      ("latitude", Json.real "60.1708"), ("ircnick", Json.str "djszapi"),
      ("ircchannels", Json.str "ocs, qt-labs"),
      ("irclink", Json.arr [
        Json.obj [("link", Json.str "irc://irc.freenode.org/ocs")],
        Json.obj [("link", Json.str "irc://irc.freenode.org/qt-labs")]]),
      ("likes", Json.str "lot of stuff"), ("dontlikes", Json.str "nothing"),
      ("interests", Json.str "travel"), ("languages", Json.str "english"),
      ("programminglanguages", Json.str "c, c++"), ("favouritequote", Json.null),
      ("favouritemusic", Json.str "Iron Maiden"), ("favouritetvshows", Json.null),
      ("favouritemovies", Json.str "Back to the Future"), ("favouritebooks", Json.null),
      ("favouritegames", Json.str "Star Craft"), ("description", Json.null),
      ("profilpage",
        Json.str "https://www.KDE-Look.org/usermanager/search.php?username=lpapp")]])

/-- The document of `testComment`. -/
def commentDocument : Json :=
  okEnvelope (Json.arr [
    Json.obj [("id", Json.num 235), ("subject", Json.str "vxvdfvd"),
      ("text", Json.str "gfdgfdgfgfgf"), ("childcount", Json.num 1),
      ("user", Json.str "test"), ("date", Json.str "2005-01-29T19:17:06+01:00"),
      ("score", Json.num 60),
      ("children", Json.arr [
        Json.obj [("id", Json.num 315), ("subject", Json.str "Re: jjjjjjjjjjjjjjj"),
          ("text", Json.str "gfdg"), ("childcount", Json.num 0),
          ("user", Json.str "lpapp"), ("date", Json.str "2007-03-13T21:34:43+01:00"),
          ("score", Json.num 40)]])]])

/-- The document of `testContent`, without its preview, homepage and download
members. -/
def contentDocument : Json :=
  okEnvelope (Json.arr [
    Json.obj [("details", Json.str "full"), ("id", Json.num 100),
      ("name", Json.str "GradE8"), ("version", Json.null),
      ("summary", Json.str "this is a short summary"),
      ("changed", Json.str "2001-09-28T18:45:40+02:00"),
      ("created", Json.str "2001-09-28T18:45:40+02:00"), ("typeid", Json.num 10),
      ("typename", Json.str "Theme/Style for KDE 2.1"), ("language", Json.null),
      ("personid", Json.str "Hans"), ("downloads", Json.num 2), ("score", Json.num 67),
      ("comments", Json.num 0), ("fans", Json.num 22),
      ("icon", Json.arr [
        Json.obj [("width", Json.num 16), ("height", Json.num 16),
          ("link", Json.str "https://www.KDE-Look.org/img/icon1.png")],
        Json.obj [("width", Json.num 32), ("height", Json.num 32),
          ("link", Json.str "https://www.KDE-Look.org/img/icon2.png")],
        Json.obj [("width", Json.num 64), ("height", Json.num 64),
          ("link", Json.str "https://www.KDE-Look.org/img/icon2.png")]]),
      ("video", Json.arr [
        Json.obj [("link", Json.str "https://www.KDE-Look.org/video/video1.mpg")],
        Json.obj [("link", Json.str "https://www.KDE-Look.org/video/video2.mpg")],
        Json.obj [("link", Json.str "https://www.KDE-Look.org/video/video3.mpg")]]),
      ("downloadprice2", Json.real "2.99"),
      ("detailpage", Json.str "https://www.KDE-Look.org/content/show.php?content=100")]])

/-- The single-item envelope of the testable properties: id 42, name X and an
unknown field. -/
def genericDocument : Json :=
  okEnvelope (Json.obj [("id", Json.str "42"), ("name", Json.str "X"),
    ("unknownfield", Json.str "Y")])

/-- A list payload of four elements, two of them malformed: a number and a
string. -/
def brokenListDocument : Json :=
  okEnvelope (Json.arr [
    Json.obj [("id", Json.num 1), ("name", Json.str "first")],
    Json.num 7,
    Json.str "oops",
    Json.obj [("id", Json.num 3)]])

/-! ## Post jobs and the remaining factory methods -/

/-- A `KnowledgeBaseEntry`, as far as the provider is concerned. -/
structure KnowledgeBaseEntry where
  id : String := ""

/-- A `Project`: the members `projectPostParameters` reads, and its id. -/
structure Project where
  id : String := ""
  name : String := ""
  summary : String := ""
  description : String := ""
  url : String := ""
  developers : List String := []
  version : String := ""
  license : String := ""
  requirements : String := ""
  specFile : String := ""

/-- A `BuildServiceJob`: the members the provider reads. -/
structure BuildServiceJob where
  id : String := ""
  name : String := ""
  projectId : String := ""
  target : String := ""
  buildServiceId : String := ""

/-- A `Publisher`: its id. -/
structure Publisher where
  id : String := ""

/-- A `PostJob` as it is constructed: the platform object, the request, and the post
parameters; a job constructed without a parameter argument has the empty
map. -/
structure PostJob (Store : Type) where
  m_internals : Option (PlatformDependent Store)
  m_request : QNetworkRequest
  m_parameters : StringMap := []

/-- An `ItemPostJob<T>` as it is constructed. -/
structure ItemPostJob (T : Type) (Store : Type) where
  m_internals : Option (PlatformDependent Store)
  m_request : QNetworkRequest
  m_parameters : StringMap := []

/-- The function `projectPostParameters`. -/
def projectPostParameters (project : Project) : StringMap :=
  let postParameters : StringMap := []
  let postParameters :=
    if !isEmpty project.name then postParameters.insert "name" project.name
    else postParameters
  let postParameters :=
    if !isEmpty project.summary then postParameters.insert "summary" project.summary
    else postParameters
  let postParameters :=
    if !isEmpty project.description then
      postParameters.insert "description" project.description
    else postParameters
  let postParameters :=
    if !isEmpty project.url then postParameters.insert "url" project.url else postParameters
  let postParameters :=
    if project.developers.length != 0 then
      postParameters.insert "developers" (join "\n" project.developers)
    else postParameters
  let postParameters :=
    if !isEmpty project.version then postParameters.insert "version" project.version
    else postParameters
  let postParameters :=
    if !isEmpty project.license then postParameters.insert "license" project.license
    else postParameters
  let postParameters :=
    if !isEmpty project.requirements then
      postParameters.insert "requirements" project.requirements
    else postParameters
  let postParameters :=
    if !isEmpty project.specFile then postParameters.insert "specfile" project.specFile
    else postParameters
  postParameters

namespace Provider

variable {Store : Type}

/-- The construction `new PostJob(d->m_internals, createRequest(path), parameters)`. -/
def postJobPath (p : Provider Store) (path : String) (parameters : StringMap) :
    PostJob Store × Provider Store :=
  let (request, p) := p.createRequestPath path
  ({ m_internals := p.d.m_internals, m_request := request, m_parameters := parameters }, p)

/-- The construction `new PostJob(d->m_internals, createRequest(url), parameters)`. -/
def postJobUrl (p : Provider Store) (url : QUrl) (parameters : StringMap) :
    PostJob Store × Provider Store :=
  let (request, p) := p.createRequest url
  ({ m_internals := p.d.m_internals, m_request := request, m_parameters := parameters }, p)

/-- The call `Provider::checkLogin`. -/
def checkLogin (p : Provider Store) (user password : String) : PostJob Store × Provider Store :=
  let postParameters : StringMap := []
  let postParameters := postParameters.insert "login" user
  let postParameters := postParameters.insert "password" password
  p.postJobPath "person/check" postParameters

/-- The call `Provider::createProject`. -/
def createProject (p : Provider Store) (project : Project) : PostJob Store × Provider Store :=
  p.postJobPath "buildservice/project/create" (projectPostParameters project)

/-- The call `Provider::editProject`. -/
def editProject (p : Provider Store) (project : Project) : PostJob Store × Provider Store :=
  p.postJobPath ("buildservice/project/edit/" ++ project.id) (projectPostParameters project)

/-- The call `Provider::deleteProject`. -/
def deleteProject (p : Provider Store) (project : Project) : PostJob Store × Provider Store :=
  p.postJobPath ("buildservice/project/delete/" ++ project.id) (projectPostParameters project)

/-- The call `Provider::publishBuildJob`. -/
def publishBuildJob (p : Provider Store) (buildjob : BuildServiceJob) (publisher : Publisher) :
    PostJob Store × Provider Store :=
  let postParameters : StringMap := []
  let postParameters := postParameters.insert "dummyparameter" "dummyvalue"
  let url := "buildservice/publishing/publishtargetresult/" ++ buildjob.id ++ "/" ++ publisher.id
  p.postJobPath url postParameters

/-- The call `Provider::cancelBuildServiceJob`. -/
def cancelBuildServiceJob (p : Provider Store) (job : BuildServiceJob) :
    PostJob Store × Provider Store :=
  let postParameters : StringMap := []
  let postParameters := postParameters.insert "dummyparameter" "dummyvalue"
  p.postJobPath ("buildservice/jobs/cancel/" ++ job.id) postParameters

/-- The call `Provider::createBuildServiceJob`, whose comment says that a post job is not
run without parameters. -/
def createBuildServiceJob (p : Provider Store) (job : BuildServiceJob) :
    PostJob Store × Provider Store :=
  let postParameters : StringMap := []
  let postParameters := postParameters.insert "dummyparameter" "dummyvalue"
  p.postJobPath
    ("buildservice/jobs/create/" ++ job.projectId ++ "/" ++ job.buildServiceId ++ "/"
      ++ job.target)
    postParameters

/-- The call `Provider::deleteRemoteAccount`. -/
def deleteRemoteAccount (p : Provider Store) (id : String) : PostJob Store × Provider Store :=
  let postParameters : StringMap := []
  p.postJobPath ("buildservice/remoteaccounts/remove/" ++ id) postParameters

/-- The call `Provider::postActivity`. -/
def postActivity (p : Provider Store) (message : String) : PostJob Store × Provider Store :=
  let postParameters : StringMap := []
  let postParameters := postParameters.insert "message" message
  p.postJobPath "activity" postParameters

/-- The call `Provider::inviteFriend`. -/
def inviteFriend (p : Provider Store) (toId message : String) : PostJob Store × Provider Store :=
  let postParameters : StringMap := []
  let postParameters := postParameters.insert "message" message
  p.postJobPath ("friend/invite/" ++ toId) postParameters

/-- The call `Provider::approveFriendship`: the job is constructed without parameters. -/
def approveFriendship (p : Provider Store) (toId : String) : PostJob Store × Provider Store :=
  let (request, p) := p.createRequestPath ("friend/approve/" ++ toId)
  ({ m_internals := p.d.m_internals, m_request := request }, p)

/-- The call `Provider::declineFriendship`: the job is constructed without parameters. -/
def declineFriendship (p : Provider Store) (toId : String) : PostJob Store × Provider Store :=
  let (request, p) := p.createRequestPath ("friend/decline/" ++ toId)
  ({ m_internals := p.d.m_internals, m_request := request }, p)

/-- The call `Provider::cancelFriendship`: the job is constructed without parameters. -/
def cancelFriendship (p : Provider Store) (toId : String) : PostJob Store × Provider Store :=
  let (request, p) := p.createRequestPath ("friend/cancel/" ++ toId)
  ({ m_internals := p.d.m_internals, m_request := request }, p)

/-- The call `Provider::addNewContent`; `none` is the null pointer it returns for an
invalid category. -/
def addNewContent (p : Provider Store) (category : Category) (cont : Content) :
    Option (ItemPostJob Content Store) × Provider Store :=
  if !category.isValid then (none, p)
  else
    let (url, p) := p.createUrl "content/add"
    let pars : StringMap := cont.attributes
    let pars := pars.insert "type" category.id
    let pars := pars.insert "name" cont.name
    let (request, p) := p.createRequest url
    (some { m_internals := p.d.m_internals, m_request := request, m_parameters := pars }, p)

/-- The call `Provider::voteForContent(const QString&, bool)`. -/
def voteForContentBool (p : Provider Store) (contentId : String) (positiveVote : Bool) :
    PostJob Store × Provider Store :=
  let postParameters : StringMap := []
  let postParameters := postParameters.insert "vote" (if positiveVote then "good" else "bad")
  p.postJobPath ("content/vote/" ++ contentId) postParameters

/-- The call `Provider::voteForContent(const QString&, uint)`. `assertions` tells whether
`Q_ASSERT` is compiled in; `none` is the failed assertion. -/
def voteForContent (assertions : Bool) (p : Provider Store) (contentId : String)
    (rating : Nat) : Option (PostJob Store × Provider Store) :=
  if assertions && !decide (rating ≤ 100) then none
  else
    let postParameters : StringMap := []
    let postParameters := postParameters.insert "vote" (numberUInt rating)
    some (p.postJobPath ("content/vote/" ++ contentId) postParameters)

/-- The call `Provider::voteForComment`; `none` is the null pointer it returns for a rating
above 100. -/
def voteForComment (p : Provider Store) (id : String) (rating : Nat) :
    Option (PostJob Store) × Provider Store :=
  if rating > 100 then (none, p)
  else
    let postParameters : StringMap := []
    let postParameters := postParameters.insert "vote" (numberUInt rating)
    let (url, p) := p.createUrl ("comments/vote/" ++ id)
    let r := p.postJobUrl url postParameters
    (some r.1, r.2)

/-- The call `Provider::searchKnowledgeBase`. -/
def searchKnowledgeBase (p : Provider Store) (content : Content) (search : String)
    (sortMode : SortMode) (page pageSize : Int) :
    ListJob KnowledgeBaseEntry Store × Provider Store :=
  let (url, p) := p.createUrl "knowledgebase/data"
  let url := if content.isValid then url.addQueryItem "content" content.id else url
  let url := url.addQueryItem "search" search
  let sortModeString :=
    match sortMode with
    | SortMode.Newest => "new"
    | SortMode.Alphabetical => "alpha"
    | SortMode.Rating => "high"
    | SortMode.Downloads => "new"
  let url := if !isEmpty sortModeString then url.addQueryItem "sortmode" sortModeString else url
  let url := url.addQueryItem "page" (numberInt page)
  let url := url.addQueryItem "pagesize" (numberInt pageSize)
  let (request, p) := p.createRequest url
  ({ m_internals := p.d.m_internals, m_request := request }, p)

/-- The query items that `searchKnowledgeBase` adds to the URL it got from
`createUrl`. -/
def knowledgeBaseItems (p : Provider Store) (content : Content) (search : String)
    (sortMode : SortMode) (page pageSize : Int) : List (String × String) :=
  ((p.searchKnowledgeBase content search sortMode page pageSize).1.m_request.url.queryItems).drop
    (p.createUrl "knowledgebase/data").1.queryItems.length

end Provider

/-- An `insert` under a condition, as in `if (!field.isEmpty()) map.insert(key, field)`. -/
def StringMap.insertIf (m : StringMap) (c : Bool) (key value : String) : StringMap :=
  if c then m.insert key value else m

/-! ## Observing the credential store and the parser input -/

/-- A call into the credential store. -/
inductive StoreCall where
  | hasCredentials (baseUrl : QUrl)
  | loadCredentials (baseUrl : QUrl)
  | saveCredentials (baseUrl : QUrl) (user password : String)
  deriving DecidableEq, Repr

/-- A platform object that answers as the given one does and appends every
call it receives to a list kept beside the store. -/
def logged {Store : Type} (internals : PlatformDependent Store) :
    PlatformDependent (Store × List StoreCall) :=
  { hasCredentials := fun s baseUrl =>
      ((internals.hasCredentials s.1 baseUrl).1,
        ((internals.hasCredentials s.1 baseUrl).2, s.2 ++ [StoreCall.hasCredentials baseUrl]))
    loadCredentials := fun s baseUrl =>
      ((internals.loadCredentials s.1 baseUrl).1,
        ((internals.loadCredentials s.1 baseUrl).2, s.2 ++ [StoreCall.loadCredentials baseUrl]))
    saveCredentials := fun s baseUrl user password =>
      ((internals.saveCredentials s.1 baseUrl user password).1,
        ((internals.saveCredentials s.1 baseUrl user password).2,
          s.2 ++ [StoreCall.saveCredentials baseUrl user password])) }

/-- A credential store that holds the pair `user`, `pass` for every address. -/
def walletStore : PlatformDependent Unit :=
  { hasCredentials := fun s _ => (true, s)
    loadCredentials := fun s _ => ((true, "user", "pass"), s)
    saveCredentials := fun s _ _ _ => (true, s) }

/-- Private data with an icon, and credentials of its own. -/
def privateWithIcon : Private Unit :=
  { m_baseUrl := QUrl.fromString "http://example.org/v1/"
    m_icon := QUrl.fromString "http://example.org/icon.png"
    m_name := "example"
    m_credentialsUserName := "old"
    m_credentialsPassword := "secret"
    m_personVersion := "1.0"
    m_internals := some walletStore }

/-- A provider whose private data, with an icon, is shared with a copy of the
provider. -/
def sharedProviderWithIcon : Provider Unit := { d := privateWithIcon, shared := true }

/-- The conversion `QString::fromUtf8(const QByteArray&)`: the whole array is decoded, zero
bytes included. -/
def fromUtf8Sized (data : QByteArray) : String :=
  String.mk (fromUtf8Chars data.length data)

/-- The texts handed to the parser, in the order of the calls. -/
def parsedTexts {E M : Type} : List (Effect E M) → List String
  | [] => []
  | Effect.parse text :: rest => text :: parsedTexts rest
  | _ :: rest => parsedTexts rest

/-! # Theorems -/

/-! ## Helper lemmas: strings and codecs -/

theorem isEmpty_iff (s : String) : isEmpty s = true ↔ s = "" := by
  cases s with
  | mk data =>
      cases data with
      | nil => simp [isEmpty]
      | cons c cs =>
          simp only [isEmpty, List.isEmpty_cons, Bool.false_eq_true, false_iff]
          intro h
          have := congrArg String.data h
          simp at this

theorem isEmpty_eq_false_iff (s : String) : isEmpty s = false ↔ s ≠ "" := by
  rw [Ne, ← isEmpty_iff]; cases isEmpty s <;> simp

theorem toNat_ofNat_of_lt {b : Nat} (h : b < 0xD800) : (Char.ofNat b).toNat = b := by
  have hv : b.isValidChar := Or.inl h
  simp only [Char.ofNat, hv, Char.toNat, Char.ofNatAux, dite_true]
  show (BitVec.ofNatLt b _).toNat = b
  simp

theorem toLocal8Bit_append (a b : String) :
    toLocal8Bit (a ++ b) = toLocal8Bit a ++ toLocal8Bit b := by
  simp [toLocal8Bit, List.flatMap_append]

theorem toLocal8Bit_fromLatin1 (bytes : QByteArray) (h : ∀ b ∈ bytes, b < 128) :
    toLocal8Bit (fromLatin1 bytes) = bytes := by
  induction bytes with
  | nil => rfl
  | cons b rest ih =>
      have hb : b < 128 := h b (List.mem_cons_self _ _)
      have hrest : ∀ x ∈ rest, x < 128 := fun x hx => h x (List.mem_cons_of_mem _ hx)
      have ih2 := ih hrest
      simp only [toLocal8Bit, fromLatin1, List.map_cons, List.flatMap_cons] at ih2 ⊢
      rw [ih2, toNat_ofNat_of_lt (by omega)]
      simp [utf8EncodeChar, hb]

theorem base64Digit_lt (i : Nat) : base64Digit i < 128 := by
  unfold base64Digit
  rw [List.getD_eq_getElem?_getD]
  cases h : base64Alphabet[i]? with
  | none => simp
  | some x =>
      have hx : x ∈ base64Alphabet := List.getElem?_mem h
      have hall : ∀ y ∈ base64Alphabet, y < 128 := by decide
      simpa using hall x hx

theorem toBase64_lt : ∀ (bytes : QByteArray), ∀ b ∈ toBase64 bytes, b < 128
  | [] => by simp [toBase64]
  | [a] => by
      intro b hb
      simp only [toBase64, List.mem_cons, List.mem_singleton, List.not_mem_nil, or_false] at hb
      rcases hb with h | h | h | h <;> subst h <;> first | exact base64Digit_lt _ | decide
  | [a, c] => by
      intro b hb
      simp only [toBase64, List.mem_cons, List.mem_singleton, List.not_mem_nil, or_false] at hb
      rcases hb with h | h | h | h <;> subst h <;> first | exact base64Digit_lt _ | decide
  | a :: c :: d :: rest => by
      intro b hb
      simp only [toBase64, List.mem_cons] at hb
      rcases hb with h | h | h | h | h
      · subst h; exact base64Digit_lt _
      · subst h; exact base64Digit_lt _
      · subst h; exact base64Digit_lt _
      · subst h; exact base64Digit_lt _
      · exact toBase64_lt rest b h

/-- The bytes of the header text `Basic ` followed by a base64 text are these
characters, one byte each. -/
theorem headerData_bytes (user password : String) :
    toLocal8Bit ("Basic " ++ fromLatin1 (toBase64 (toLocal8Bit (user ++ ":" ++ password))))
      = basicAuthorization user password := by
  rw [toLocal8Bit_append, toLocal8Bit_fromLatin1 _ (toBase64_lt _)]
  rfl

theorem basicAuthorization_ne_nil (user password : String) :
    basicAuthorization user password ≠ [] := by
  simp [basicAuthorization]

/-! ## Helper lemmas: the provider -/

namespace Provider

variable {Store : Type}

theorem sameConfiguration_refl (a : Private Store) : sameConfiguration a a := by
  simp [sameConfiguration]

theorem sameConfiguration_copy (a : Private Store) : sameConfiguration a.copy a := by
  simp [sameConfiguration, Private.copy]

theorem detach_sameConfiguration (p : Provider Store) : sameConfiguration p.detach.d p.d := by
  unfold detach
  split
  · exact sameConfiguration_copy _
  · exact sameConfiguration_refl _

theorem detach_detach (p : Provider Store) : p.detach.detach = p.detach := by
  unfold detach
  split <;> simp_all

@[simp] theorem detach_userName (p : Provider Store) :
    p.detach.d.m_credentialsUserName = p.d.m_credentialsUserName :=
  (detach_sameConfiguration p).2.2.1

@[simp] theorem detach_password (p : Provider Store) :
    p.detach.d.m_credentialsPassword = p.d.m_credentialsPassword :=
  (detach_sameConfiguration p).2.2.2.1

@[simp] theorem detach_baseUrl (p : Provider Store) :
    p.detach.d.m_baseUrl = p.d.m_baseUrl :=
  (detach_sameConfiguration p).1

@[simp] theorem detach_internals (p : Provider Store) :
    p.detach.d.m_internals = p.d.m_internals :=
  (detach_sameConfiguration p).2.2.2.2.2.2.2.2.2.2.2.2.2

@[simp] theorem createUrl_snd (p : Provider Store) (path : String) :
    (p.createUrl path).2 = p.detach := by
  simp only [createUrl]
  split <;> rfl

@[simp] theorem createRequest_snd (p : Provider Store) (url : QUrl) :
    (p.createRequest url).2 = p.detach := by
  simp only [createRequest]
  split <;> rfl

/-- The URL of `createUrl`, without the detour through the private data. -/
theorem createUrl_fst (p : Provider Store) (path : String) :
    (p.createUrl path).1 =
      if isEmpty p.d.m_credentialsUserName then
        QUrl.fromString (p.d.m_baseUrl.toString ++ path)
      else
        ((QUrl.fromString (p.d.m_baseUrl.toString ++ path)).setUserName
          p.d.m_credentialsUserName).setPassword p.d.m_credentialsPassword := by
  unfold createUrl
  cases h : isEmpty p.d.m_credentialsUserName <;> simp [h]

/-- The request of `createRequest`, without the detour through the private data. -/
theorem createRequest_fst (p : Provider Store) (url : QUrl) :
    (p.createRequest url).1 =
      if isEmpty p.d.m_credentialsUserName then { url := url }
      else { url := url
             rawHeaders := [("Authorization",
               basicAuthorization p.d.m_credentialsUserName p.d.m_credentialsPassword)] } := by
  unfold createRequest
  cases h : isEmpty p.d.m_credentialsUserName
  · have hne := basicAuthorization_ne_nil p.d.m_credentialsUserName p.d.m_credentialsPassword
    simp [h, headerData_bytes, QNetworkRequest.setRawHeader, QNetworkRequest.new, hne]
  · simp [h, QNetworkRequest.new]

end Provider

/-! ## The claims -/

/-- C1. For every provider and every URL, the request of `createRequest` is
addressed to that URL, and its `Authorization` header is exactly the bytes of
`Basic ` followed by the base64 text of `user:password` when the stored user
name is not empty; when it is empty the request has no `Authorization` header,
whatever the stored password. -/
theorem createRequest_authorization {Store : Type} (p : Provider Store) (url : QUrl) :
    (p.createRequest url).1.url = url ∧
    (p.createRequest url).1.rawHeader "Authorization" =
      if isEmpty p.d.m_credentialsUserName then none
      else some ([66, 97, 115, 105, 99, 32] ++
        toBase64 (toLocal8Bit (p.d.m_credentialsUserName ++ ":" ++ p.d.m_credentialsPassword))) := by
  rw [Provider.createRequest_fst]
  cases h : isEmpty p.d.m_credentialsUserName
  · simp [QNetworkRequest.rawHeader, basicAuthorization]
  · simp [QNetworkRequest.rawHeader]

/-! ## Helper lemmas: URLs -/

theorem after_eq_nil_of_not_mem {c : Char} {cs : List Char} (h : c ∉ cs) : after c cs = [] := by
  have : cs.dropWhile (fun x => x != c) = [] := by
    rw [List.dropWhile_eq_nil_iff]
    intro x hx
    have hne : x ≠ c := fun e => h (e ▸ hx)
    simpa using hne
  simp [after, this]

theorem not_mem_before {c d : Char} {cs : List Char} (h : c ∉ cs) : c ∉ before d cs := by
  intro hm
  exact h ((List.takeWhile_sublist _).subset hm)

/-- A text without `?` has no query items. -/
theorem fromString_queryItems_of_no_query (text : String) (h : '?' ∉ text.data) :
    (QUrl.fromString text).queryItems = [] := by
  simp [QUrl.fromString, after_eq_nil_of_not_mem (not_mem_before h), parseQuery]

namespace Provider

variable {Store : Type}

theorem createUrl_queryItems (p : Provider Store) (path : String) :
    (p.createUrl path).1.queryItems
      = (QUrl.fromString (p.d.m_baseUrl.toString ++ path)).queryItems := by
  rw [createUrl_fst]
  split <;> rfl

theorem doRequestPersonList_url (p : Provider Store) (url : QUrl) :
    (p.doRequestPersonList url).1.m_request.url = url := by
  simp only [doRequestPersonList, createRequest_fst]
  split <;> rfl

end Provider

/-! ## The claims, continued -/

/-- C2 (as stated, refuted). At the base address `http://example.org/v1/` the
address of `createUrl("person/self")` is `http://example.org/v1/person/self`,
which is neither the text nor the URL of base address, `/`, path; at the base
address `http://example.org/v1` the path of the address is `/v1person/self`. -/
theorem createUrl_separator_counterexample :
    (sampleProvider.createUrl "person/self").1.toString = "http://example.org/v1/person/self"
    ∧ (sampleProvider.createUrl "person/self").1.toString
        ≠ sampleProvider.d.m_baseUrl.toString ++ "/" ++ "person/self"
    ∧ (sampleProvider.createUrl "person/self").1
        ≠ QUrl.fromString (sampleProvider.d.m_baseUrl.toString ++ "/" ++ "person/self")
    ∧ (slashlessProvider.createUrl "person/self").1.path = "/v1person/self"
    ∧ (slashlessProvider.createUrl "person/self").1
        ≠ QUrl.fromString (slashlessProvider.d.m_baseUrl.toString ++ "/" ++ "person/self") := by
  decide

/-- C2 (amended). For every provider and every resource path, the address of
`createUrl(path)` is read from the text of the base address immediately
followed by the resource path, no separator being inserted: scheme,
authority, path, query and fragment are those of that text. -/
theorem createUrl_address {Store : Type} (p : Provider Store) (path : String) :
    (p.createUrl path).1.scheme = (QUrl.fromString (p.d.m_baseUrl.toString ++ path)).scheme
    ∧ (p.createUrl path).1.hasAuthority
        = (QUrl.fromString (p.d.m_baseUrl.toString ++ path)).hasAuthority
    ∧ (p.createUrl path).1.host = (QUrl.fromString (p.d.m_baseUrl.toString ++ path)).host
    ∧ (p.createUrl path).1.path = (QUrl.fromString (p.d.m_baseUrl.toString ++ path)).path
    ∧ (p.createUrl path).1.queryItems
        = (QUrl.fromString (p.d.m_baseUrl.toString ++ path)).queryItems
    ∧ (p.createUrl path).1.fragment
        = (QUrl.fromString (p.d.m_baseUrl.toString ++ path)).fragment := by
  rw [Provider.createUrl_fst]
  split <;> simp [QUrl.setUserName, QUrl.setPassword]

/-- C3 (as stated, refuted). For the id `bob?x=1` the URL of `requestFriends`
has three query items: the item `x=1` of the address comes before `page` and
`pagesize`. -/
theorem requestFriends_query_counterexample :
    (sampleProvider.requestFriends "bob?x=1" 0 10).1.m_request.url.queryItems
      = [("x", "1"), ("page", "0"), ("pagesize", "10")]
    ∧ (sampleProvider.requestFriends "bob?x=1" 0 10).1.m_request.url.queryItems
      ≠ [("page", numberInt 0), ("pagesize", numberInt 10)] := by
  decide

/-- C3 (amended). For every id, page and page size, the query items of the URL
of `requestFriends`, `requestSentInvitations` and `requestReceivedInvitations`
are the query items that the address text (base address followed by the
resource path) has of its own, followed by `page` and `pagesize` with the
decimal numbers, in that order; they are exactly these two when the address
text contains no `?`. -/
theorem requestFriends_paging {Store : Type} (p : Provider Store) (id : String)
    (page pageSize : Int) :
    (p.requestFriends id page pageSize).1.m_request.url.queryItems
      = (QUrl.fromString (p.d.m_baseUrl.toString ++ ("friend/data/" ++ id))).queryItems
          ++ [("page", toString page), ("pagesize", toString pageSize)]
    ∧ (p.requestSentInvitations page pageSize).1.m_request.url.queryItems
      = (QUrl.fromString (p.d.m_baseUrl.toString ++ "friend/sentinvitations")).queryItems
          ++ [("page", toString page), ("pagesize", toString pageSize)]
    ∧ (p.requestReceivedInvitations page pageSize).1.m_request.url.queryItems
      = (QUrl.fromString (p.d.m_baseUrl.toString ++ "friend/receivedinvitations")).queryItems
          ++ [("page", toString page), ("pagesize", toString pageSize)]
    ∧ ('?' ∉ (p.d.m_baseUrl.toString ++ ("friend/data/" ++ id)).data →
        (p.requestFriends id page pageSize).1.m_request.url.queryItems
          = [("page", toString page), ("pagesize", toString pageSize)])
    ∧ ('?' ∉ (p.d.m_baseUrl.toString ++ "friend/sentinvitations").data →
        (p.requestSentInvitations page pageSize).1.m_request.url.queryItems
          = [("page", toString page), ("pagesize", toString pageSize)])
    ∧ ('?' ∉ (p.d.m_baseUrl.toString ++ "friend/receivedinvitations").data →
        (p.requestReceivedInvitations page pageSize).1.m_request.url.queryItems
          = [("page", toString page), ("pagesize", toString pageSize)]) := by
  have h1 : (p.requestFriends id page pageSize).1.m_request.url.queryItems
      = (QUrl.fromString (p.d.m_baseUrl.toString ++ ("friend/data/" ++ id))).queryItems
          ++ [("page", toString page), ("pagesize", toString pageSize)] := by
    simp only [Provider.requestFriends, Provider.doRequestPersonList_url, QUrl.addQueryItem,
      Provider.createUrl_queryItems, numberInt, List.append_assoc, List.singleton_append]
  have h2 : (p.requestSentInvitations page pageSize).1.m_request.url.queryItems
      = (QUrl.fromString (p.d.m_baseUrl.toString ++ "friend/sentinvitations")).queryItems
          ++ [("page", toString page), ("pagesize", toString pageSize)] := by
    simp only [Provider.requestSentInvitations, Provider.doRequestPersonList_url,
      QUrl.addQueryItem, Provider.createUrl_queryItems, numberInt, List.append_assoc,
      List.singleton_append]
  have h3 : (p.requestReceivedInvitations page pageSize).1.m_request.url.queryItems
      = (QUrl.fromString (p.d.m_baseUrl.toString ++ "friend/receivedinvitations")).queryItems
          ++ [("page", toString page), ("pagesize", toString pageSize)] := by
    simp only [Provider.requestReceivedInvitations, Provider.doRequestPersonList_url,
      QUrl.addQueryItem, Provider.createUrl_queryItems, numberInt, List.append_assoc,
      List.singleton_append]
  refine ⟨h1, h2, h3, ?_, ?_, ?_⟩
  · intro h; rw [h1, fromString_queryItems_of_no_query _ h]; rfl
  · intro h; rw [h2, fromString_queryItems_of_no_query _ h]; rfl
  · intro h; rw [h3, fromString_queryItems_of_no_query _ h]; rfl

/-- C3 (amended), at a concrete input: page 0 with page size 10 gives exactly
the items `page=0` and `pagesize=10`, and the address
`http://example.org/v1/friend/data/bob?page=0&pagesize=10`. -/
theorem requestFriends_paging_witness :
    '?' ∉ (sampleProvider.d.m_baseUrl.toString ++ ("friend/data/" ++ "bob")).data
    ∧ (sampleProvider.requestFriends "bob" 0 10).1.m_request.url.queryItems
        = [("page", "0"), ("pagesize", "10")]
    ∧ (sampleProvider.requestFriends "bob" 0 10).1.m_request.url.toString
        = "http://example.org/v1/friend/data/bob?page=0&pagesize=10" :=
  ⟨by decide, (requestFriends_paging sampleProvider "bob" 0 10).2.2.2.1 (by decide), by decide⟩

namespace Provider

variable {Store : Type}

/-- The constructor stores the nine version strings as they are given,
whatever the credential store answers. -/
theorem create_versions (internals : PlatformDependent Store) (store : Store)
    (baseUrl : QUrl) (name : String) (icon : QUrl)
    (person friendV message activity content fan knowledgebase event comment : String) :
    let d := (Private.create internals store baseUrl name icon person friendV message
      activity content fan knowledgebase event comment).1
    d.m_personVersion = person ∧ d.m_friendVersion = friendV ∧ d.m_messageVersion = message
      ∧ d.m_activityVersion = activity ∧ d.m_contentVersion = content ∧ d.m_fanVersion = fan
      ∧ d.m_knowledgebaseVersion = knowledgebase ∧ d.m_eventVersion = event
      ∧ d.m_commentVersion = comment := by
  simp only [Private.create]
  split
  · simp
  · split
    · split <;> simp
    · simp

theorem not_isEmpty_iff (s : String) : (!isEmpty s) = true ↔ s ≠ "" := by
  rw [Ne, ← isEmpty_iff]; cases isEmpty s <;> simp

/-- The query items of the URL of `searchContents`. -/
theorem searchContents_queryItems (p : Provider Store) (categories : List Category)
    (person : String) (distributions : List Distribution) (licenses : List License)
    (search : String) (sortMode : SortMode) (page pageSize : Nat) :
    (p.searchContents categories person distributions licenses search sortMode page
        pageSize).1.m_request.url.queryItems
      = (p.createUrl "content/data").1.queryItems
        ++ ([("categories", join "x" (categories.map (fun c => c.id))),
             ("distribution", join "," (distributions.map (fun d => stringOfUInt d.id))),
             ("license", join "," (licenses.map (fun l => stringOfUInt l.id)))]
            ++ (if isEmpty person then [] else [("user", person)])
            ++ [("search", search),
                ("sortmode", match sortMode with
                  | SortMode.Newest => "new"
                  | SortMode.Alphabetical => "alpha"
                  | SortMode.Rating => "high"
                  | SortMode.Downloads => "down"),
                ("page", toString page), ("pagesize", toString pageSize)]) := by
  have hurl : ∀ (q : Provider Store) (u : QUrl), (q.createRequest u).1.url = u := by
    intro q u
    rw [createRequest_fst]; split <;> rfl
  simp only [searchContents, hurl]
  cases hp : isEmpty person <;> cases sortMode <;>
    simp [QUrl.addQueryItem, numberUInt, isEmpty]

end Provider

/-- C4. A provider constructed with the version strings (person, friend,
message, activity, content, fan, knowledgebase, event, comment) reports each
of the eight services as present exactly when the constructor argument of
that same service is not empty, and each version getter returns that same
argument, for every platform object, store, base URL, name and icon. -/
theorem create_services {Store : Type} (internals : PlatformDependent Store) (store : Store)
    (baseUrl : QUrl) (name : String) (icon : QUrl)
    (person friendV message activity content fan knowledgebase event comment : String) :
    let p := (Provider.create internals store baseUrl name icon person friendV message
      activity content fan knowledgebase event comment).1
    (p.hasPersonService = true ↔ person ≠ "")
    ∧ (p.hasFriendService = true ↔ friendV ≠ "")
    ∧ (p.hasMessageService = true ↔ message ≠ "")
    ∧ (p.hasActivityService = true ↔ activity ≠ "")
    ∧ (p.hasContentService = true ↔ content ≠ "")
    ∧ (p.hasFanService = true ↔ fan ≠ "")
    ∧ (p.hasKnowledgebaseService = true ↔ knowledgebase ≠ "")
    ∧ (p.hasCommentService = true ↔ comment ≠ "")
    ∧ p.personServiceVersion = person
    ∧ p.friendServiceVersion = friendV
    ∧ p.messageServiceVersion = message
    ∧ p.activityServiceVersion = activity
    ∧ p.contentServiceVersion = content
    ∧ p.fanServiceVersion = fan
    ∧ p.knowledgebaseServiceVersion = knowledgebase
    ∧ p.commentServiceVersion = comment := by
  intro p
  obtain ⟨h1, h2, h3, h4, h5, h6, h7, _, h9⟩ := Provider.create_versions internals store
    baseUrl name icon person friendV message activity content fan knowledgebase event comment
  simp only [p, Provider.create, Provider.hasPersonService, Provider.hasFriendService,
    Provider.hasMessageService, Provider.hasActivityService, Provider.hasContentService,
    Provider.hasFanService, Provider.hasKnowledgebaseService, Provider.hasCommentService,
    Provider.personServiceVersion, Provider.friendServiceVersion,
    Provider.messageServiceVersion, Provider.activityServiceVersion,
    Provider.contentServiceVersion, Provider.fanServiceVersion,
    Provider.knowledgebaseServiceVersion, Provider.commentServiceVersion,
    h1, h2, h3, h4, h5, h6, h7, h9, Provider.not_isEmpty_iff]
  simp

/-- C5. For every sort mode, `searchContents` adds exactly one `sortmode` item
to the URL: `new` for Newest, `alpha` for Alphabetical, `high` for Rating and
`down` for Downloads; the value is always one of these four and different
sort modes give different values. -/
theorem searchContents_sortmode {Store : Type} (p : Provider Store)
    (categories : List Category) (person : String) (distributions : List Distribution)
    (licenses : List License) (search : String) (page pageSize : Nat) :
    p.sortModeItems categories person distributions licenses search SortMode.Newest page
        pageSize = [("sortmode", "new")]
    ∧ p.sortModeItems categories person distributions licenses search SortMode.Alphabetical
        page pageSize = [("sortmode", "alpha")]
    ∧ p.sortModeItems categories person distributions licenses search SortMode.Rating page
        pageSize = [("sortmode", "high")]
    ∧ p.sortModeItems categories person distributions licenses search SortMode.Downloads page
        pageSize = [("sortmode", "down")]
    ∧ (∀ sortMode, ∃ v ∈ ["new", "alpha", "high", "down"],
        p.sortModeItems categories person distributions licenses search sortMode page
          pageSize = [("sortmode", v)])
    ∧ Function.Injective (fun sortMode =>
        p.sortModeItems categories person distributions licenses search sortMode page
          pageSize) := by
  have key : ∀ sortMode, p.sortModeItems categories person distributions licenses search
      sortMode page pageSize = [("sortmode", match sortMode with
                  | SortMode.Newest => "new"
                  | SortMode.Alphabetical => "alpha"
                  | SortMode.Rating => "high"
                  | SortMode.Downloads => "down")] := by
    intro sortMode
    simp only [Provider.sortModeItems, Provider.searchContents_queryItems,
      List.drop_left]
    cases isEmpty person <;> simp [List.filter]
  refine ⟨key _, key _, key _, key _, ?_, ?_⟩
  · intro sortMode
    cases sortMode
    · exact ⟨"new", by simp, key _⟩
    · exact ⟨"alpha", by simp, key _⟩
    · exact ⟨"high", by simp, key _⟩
    · exact ⟨"down", by simp, key _⟩
  · intro a b hab
    simp only [key] at hab
    cases a <;> cases b <;> first | rfl | (exfalso; revert hab; decide)

namespace Provider

variable {Store : Type}

theorem createRequest_url (p : Provider Store) (url : QUrl) :
    (p.createRequest url).1.url = url := by
  rw [createRequest_fst]; split <;> rfl

theorem createRequest_header (p : Provider Store) (url : QUrl)
    (h : isEmpty p.d.m_credentialsUserName = false) :
    (p.createRequest url).1.rawHeader "Authorization"
      = some (basicAuthorization p.d.m_credentialsUserName p.d.m_credentialsPassword) := by
  rw [createRequest_fst]
  simp [h, QNetworkRequest.rawHeader]

theorem createUrl_userInfo (p : Provider Store) (path : String)
    (h : isEmpty p.d.m_credentialsUserName = false) :
    (p.createUrl path).1.userName = p.d.m_credentialsUserName
      ∧ (p.createUrl path).1.password = p.d.m_credentialsPassword := by
  rw [createUrl_fst]
  simp [h, QUrl.setUserName, QUrl.setPassword]

@[simp] theorem addQueryItem_userName (u : QUrl) (k v : String) :
    (u.addQueryItem k v).userName = u.userName := rfl

@[simp] theorem addQueryItem_password (u : QUrl) (k v : String) :
    (u.addQueryItem k v).password = u.password := rfl

theorem searchContents_url_userInfo (p : Provider Store) (categories : List Category)
    (person : String) (distributions : List Distribution) (licenses : List License)
    (search : String) (sortMode : SortMode) (page pageSize : Nat) :
    (p.searchContents categories person distributions licenses search sortMode page
        pageSize).1.m_request.url.userName = (p.createUrl "content/data").1.userName
    ∧ (p.searchContents categories person distributions licenses search sortMode page
        pageSize).1.m_request.url.password = (p.createUrl "content/data").1.password := by
  simp only [searchContents, createRequest_url]
  cases isEmpty person <;> cases sortMode <;> simp [isEmpty]

/-- Every request-building call leaves the provider as `detach` leaves it. -/
theorem perform_snd (p : Provider Store) (op : BuildOp) : (p.perform op).2 = p.detach := by
  cases op <;>
    simp [perform, createRequestPath, requestFriends, requestSentInvitations,
      requestReceivedInvitations, doRequestPersonList, searchContents, detach_detach]

/-- With a stored user name that is not empty, what a request-building call
builds carries the stored credential pair. -/
theorem perform_carries (p : Provider Store) (op : BuildOp)
    (h : isEmpty p.d.m_credentialsUserName = false) :
    (p.perform op).1.carries p.d.m_credentialsUserName p.d.m_credentialsPassword := by
  have hd : isEmpty p.detach.d.m_credentialsUserName = false := by simpa using h
  have hu := fun path => createUrl_userInfo p path h
  have hh := fun url => createRequest_header p.detach url hd
  simp only [detach_userName, detach_password] at hh
  cases op with
  | createUrl path => exact hu path
  | createRequest url => exact createRequest_header p url h
  | createRequestPath path =>
      simp only [perform, Built.carries, createRequestPath, createUrl_snd]
      exact ⟨by rw [createRequest_url]; exact (hu path).1,
        by rw [createRequest_url]; exact (hu path).2, hh _⟩
  | requestFriends id page pageSize =>
      simp only [perform, Built.carries, requestFriends, doRequestPersonList, createUrl_snd]
      exact ⟨by rw [createRequest_url]; exact (hu _).1,
        by rw [createRequest_url]; exact (hu _).2, hh _⟩
  | requestSentInvitations page pageSize =>
      simp only [perform, Built.carries, requestSentInvitations, doRequestPersonList,
        createUrl_snd]
      exact ⟨by rw [createRequest_url]; exact (hu _).1,
        by rw [createRequest_url]; exact (hu _).2, hh _⟩
  | requestReceivedInvitations page pageSize =>
      simp only [perform, Built.carries, requestReceivedInvitations, doRequestPersonList,
        createUrl_snd]
      exact ⟨by rw [createRequest_url]; exact (hu _).1,
        by rw [createRequest_url]; exact (hu _).2, hh _⟩
  | searchContents categories person distributions licenses search sortMode page pageSize =>
      have hs := searchContents_url_userInfo p categories person distributions licenses
        search sortMode page pageSize
      refine ⟨hs.1.trans (hu _).1, hs.2.trans (hu _).2, ?_⟩
      simp only [perform, searchContents, createUrl_snd]
      exact hh _

/-- A sequence of request-building calls keeps the configuration, and with a
stored user name that is not empty everything it builds carries the stored
credential pair. -/
theorem build_invariant (ops : List BuildOp) : ∀ (p : Provider Store),
    sameConfiguration (p.build ops).2.d p.d
    ∧ (p.build ops).1.length = ops.length
    ∧ (isEmpty p.d.m_credentialsUserName = false →
        ∀ b ∈ (p.build ops).1,
          b.carries p.d.m_credentialsUserName p.d.m_credentialsPassword) := by
  induction ops with
  | nil =>
      intro p
      exact ⟨sameConfiguration_refl _, rfl, fun _ b hb => by simp [build] at hb⟩
  | cons op ops ih =>
      intro p
      obtain ⟨hc, hl, hb⟩ := ih (p.perform op).2
      rw [perform_snd] at hc hl hb
      have hdet := detach_sameConfiguration p
      refine ⟨?_, ?_, ?_⟩
      · simp only [build, perform_snd]
        unfold sameConfiguration at hc hdet ⊢
        obtain ⟨a1, a2, a3, a4, a5, a6, a7, a8, a9, a10, a11, a12, a13, a14⟩ := hc
        obtain ⟨b1, b2, b3, b4, b5, b6, b7, b8, b9, b10, b11, b12, b13, b14⟩ := hdet
        exact ⟨a1.trans b1, a2.trans b2, a3.trans b3, a4.trans b4, a5.trans b5, a6.trans b6,
          a7.trans b7, a8.trans b8, a9.trans b9, a10.trans b10, a11.trans b11, a12.trans b12,
          a13.trans b13, a14.trans b14⟩
      · simp only [build, perform_snd, List.length_cons, hl]
      · intro h b hmem
        simp only [build, perform_snd, List.mem_cons] at hmem
        rcases hmem with rfl | hmem
        · exact perform_carries p op h
        · have := hb (by simpa using h) b hmem
          simpa using this

theorem saveCredentials_eq_some (p : Provider Store) (store : Store) (user password : String)
    (ok : Bool) (p1 : Provider Store) (store1 : Store)
    (h : p.saveCredentials store user password = some (ok, p1, store1)) :
    p1.d.m_credentialsUserName = user ∧ p1.d.m_credentialsPassword = password := by
  simp only [saveCredentials] at h
  split at h
  · exact absurd h (by simp)
  · simp only [Option.some.injEq, Prod.mk.injEq] at h
    obtain ⟨_, rfl, _⟩ := h
    exact ⟨rfl, rfl⟩

end Provider

/-- C6. After `saveCredentials(user, password)` with a user name that is not
empty, for every sequence of request-building calls (`createUrl`, both
`createRequest`, `requestFriends`, `requestSentInvitations`,
`requestReceivedInvitations`, `searchContents`) every URL and request built
carries the pair (user, password), one thing is built per call, and the
stored pair is still (user, password) afterwards. The call itself returns
whenever the platform object is not null. -/
theorem saveCredentials_then_build {Store : Type} (p : Provider Store) (store : Store)
    (user password : String) (ops : List BuildOp) (huser : user ≠ "") :
    (p.d.m_internals ≠ none → (p.saveCredentials store user password).isSome = true)
    ∧ ∀ ok p1 store1, p.saveCredentials store user password = some (ok, p1, store1) →
        (∀ b ∈ (p1.build ops).1, b.carries user password)
        ∧ (p1.build ops).1.length = ops.length
        ∧ (p1.build ops).2.d.m_credentialsUserName = user
        ∧ (p1.build ops).2.d.m_credentialsPassword = password := by
  constructor
  · intro hint
    simp only [Provider.saveCredentials, Provider.detach_internals]
    cases hi : p.d.m_internals with
    | none => exact absurd hi hint
    | some internals => simp
  · intro ok p1 store1 h
    obtain ⟨h1, h2⟩ := Provider.saveCredentials_eq_some p store user password ok p1 store1 h
    obtain ⟨hc, hl, hb⟩ := Provider.build_invariant ops p1
    have hne : isEmpty p1.d.m_credentialsUserName = false := by
      rw [h1]; exact (isEmpty_eq_false_iff _).2 huser
    refine ⟨?_, hl, ?_, ?_⟩
    · have := hb hne
      rwa [h1, h2] at this
    · exact hc.2.2.1.trans h1
    · exact hc.2.2.2.1.trans h2

/-- C6, at a concrete input: after `saveCredentials("user", "pass")` on the
sample provider, a URL, a request and two jobs are built; all four carry the
pair. -/
theorem saveCredentials_then_build_witness :
    ("user" : String) ≠ ""
    ∧ sampleProvider.saveCredentials () "user" "pass"
        = some (true, sampleProviderWithCredentials, ())
    ∧ (∀ b ∈ (sampleProviderWithCredentials.build
          [BuildOp.createUrl "person/self", BuildOp.createRequestPath "person/self",
           BuildOp.requestFriends "bob" 0 10,
           BuildOp.searchContents [] "" [] [] "" SortMode.Newest 0 10]).1,
        b.carries "user" "pass") :=
  ⟨by decide, rfl,
    ((saveCredentials_then_build sampleProvider () "user" "pass"
      [BuildOp.createUrl "person/self", BuildOp.createRequestPath "person/self",
       BuildOp.requestFriends "bob" 0 10,
       BuildOp.searchContents [] "" [] [] "" SortMode.Newest 0 10] (by decide)).2
      true sampleProviderWithCredentials () rfl).1⟩

/-- C7. `createUrl` and both `createRequest` leave the configuration of the
provider as it was (base URL, name, credential pair, the nine version strings
and the platform object), also when the private data is shared and gets
detached; and building again on the provider that a call leaves behind gives
an equal URL or request. -/
theorem createUrl_createRequest_frame {Store : Type} (p : Provider Store) (path : String)
    (url : QUrl) :
    Provider.sameConfiguration (p.createUrl path).2.d p.d
    ∧ Provider.sameConfiguration (p.createRequest url).2.d p.d
    ∧ Provider.sameConfiguration (p.createRequestPath path).2.d p.d
    ∧ ((p.createUrl path).2.createUrl path).1 = (p.createUrl path).1
    ∧ ((p.createRequest url).2.createRequest url).1 = (p.createRequest url).1
    ∧ ((p.createRequestPath path).2.createRequestPath path).1
        = (p.createRequestPath path).1 := by
  have hdet := Provider.detach_sameConfiguration p
  have hpath : (p.createRequestPath path).2 = p.detach := by
    simp [Provider.createRequestPath, Provider.detach_detach]
  refine ⟨by simpa using hdet, by simpa using hdet, by rw [hpath]; exact hdet, ?_, ?_, ?_⟩
  · simp [Provider.createUrl_fst]
  · simp [Provider.createRequest_fst]
  · rw [hpath]
    simp [Provider.createRequestPath, Provider.createUrl_fst, Provider.createRequest_fst]

/-! ## Helper lemmas: the job -/

namespace KnowledgeBaseEntryJob

variable {E M : Type}

theorem countGets_append_singleShot (l : List (Effect E M)) :
    countGets (l ++ [Effect.singleShot]) = countGets l := by
  induction l with
  | nil => rfl
  | cons e l ih => cases e <;> simp [countGets, ih]

theorem countGets_append_get (l : List (Effect E M)) (url : QUrl) :
    countGets (l ++ [Effect.get url]) = countGets l + 1 := by
  induction l with
  | nil => rfl
  | cons e l ih => cases e <;> simp [countGets, ih]

/-- Starting `n` times only queues `n` timers. -/
theorem run_starts (parser : Parser E M) (n : Nat) : ∀ (j : KnowledgeBaseEntryJob E M),
    (run parser j (List.replicate n JobEvent.start)).pending = j.pending + n
    ∧ countGets (run parser j (List.replicate n JobEvent.start)).effects = countGets j.effects
    ∧ (run parser j (List.replicate n JobEvent.start)).error = j.error
    ∧ (run parser j (List.replicate n JobEvent.start)).errorText = j.errorText := by
  induction n with
  | zero => intro j; simp [run]
  | succ n ih =>
      intro j
      obtain ⟨h1, h2, h3, h4⟩ := ih j.start
      simp only [run, List.replicate_succ, List.foldl_cons, step] at h1 h2 h3 h4 ⊢
      refine ⟨?_, ?_, h3, h4⟩
      · rw [h1]; simp only [start]; omega
      · rw [h2]; simp only [start]; exact countGets_append_singleShot _

/-- Every queued timer that fires begins one transport exchange. -/
theorem run_timeouts (parser : Parser E M) (n : Nat) : ∀ (j : KnowledgeBaseEntryJob E M),
    n ≤ j.pending →
    countGets (run parser j (List.replicate n JobEvent.timeout)).effects
      = countGets j.effects + n
    ∧ (run parser j (List.replicate n JobEvent.timeout)).error = j.error
    ∧ (run parser j (List.replicate n JobEvent.timeout)).errorText = j.errorText := by
  induction n with
  | zero => intro j _; simp [run]
  | succ n ih =>
      intro j hn
      have hp : j.pending ≠ 0 := by omega
      obtain ⟨h1, h2, h3⟩ := ih ({ j with pending := j.pending - 1 }.doWork)
        (by simp only [doWork]; omega)
      simp only [run, List.replicate_succ, List.foldl_cons, step, if_neg hp] at h1 h2 h3 ⊢
      refine ⟨?_, h2, h3⟩
      rw [h1]; simp only [doWork]; rw [countGets_append_get]; omega

theorem step_of_not_isResult (parser : Parser E M) (j : KnowledgeBaseEntryJob E M)
    (e : JobEvent) (h : e.isResult = false) :
    (step parser j e).m_knowledgeBase = j.m_knowledgeBase
    ∧ (step parser j e).m_metadata = j.m_metadata
    ∧ (step parser j e).error = j.error
    ∧ (step parser j e).errorText = j.errorText := by
  cases e with
  | result job => simp [JobEvent.isResult] at h
  | timeout => simp only [step]; split <;> simp [doWork]
  | setUrl url => simp [step, setUrl]
  | start => simp [step, start]
  | data chunk => simp [step, slotJobData]

/-- Before the first result signal the entity, the metadata and the error
state of a job are what the constructor made them. -/
theorem run_of_no_result (parser : Parser E M) (events : List JobEvent) :
    ∀ (j : KnowledgeBaseEntryJob E M), (∀ e ∈ events, e.isResult = false) →
    (run parser j events).m_knowledgeBase = j.m_knowledgeBase
    ∧ (run parser j events).m_metadata = j.m_metadata
    ∧ (run parser j events).error = j.error
    ∧ (run parser j events).errorText = j.errorText := by
  induction events with
  | nil => intro j _; simp [run]
  | cons e events ih =>
      intro j h
      obtain ⟨a1, a2, a3, a4⟩ := step_of_not_isResult parser j e (h e (List.mem_cons_self _ _))
      obtain ⟨b1, b2, b3, b4⟩ := ih (step parser j e)
        (fun x hx => h x (List.mem_cons_of_mem _ hx))
      simp only [run, List.foldl_cons] at b1 b2 b3 b4 ⊢
      exact ⟨b1.trans a1, b2.trans a2, b3.trans a3, b4.trans a4⟩

theorem step_error_of_not_isFailure (parser : Parser E M) (j : KnowledgeBaseEntryJob E M)
    (e : JobEvent) (h : e.isFailure = false) :
    (step parser j e).error = j.error ∧ (step parser j e).errorText = j.errorText := by
  cases e with
  | result job =>
      have hz : job.error = 0 := by simpa [JobEvent.isFailure] using h
      simp [step, slotJobResult, emitResult, hz]
  | timeout => simp only [step]; split <;> simp [doWork]
  | setUrl url => simp [step, setUrl]
  | start => simp [step, start]
  | data chunk => simp [step, slotJobData]

/-- As long as no transport job fails, the error state of a job is what it
was. -/
theorem run_error_of_no_failure (parser : Parser E M) (events : List JobEvent) :
    ∀ (j : KnowledgeBaseEntryJob E M), (∀ e ∈ events, e.isFailure = false) →
    (run parser j events).error = j.error ∧ (run parser j events).errorText = j.errorText := by
  induction events with
  | nil => intro j _; simp [run]
  | cons e events ih =>
      intro j h
      obtain ⟨a1, a2⟩ := step_error_of_not_isFailure parser j e (h e (List.mem_cons_self _ _))
      obtain ⟨b1, b2⟩ := ih (step parser j e) (fun x hx => h x (List.mem_cons_of_mem _ hx))
      simp only [run, List.foldl_cons] at b1 b2 ⊢
      exact ⟨b1.trans a1, b2.trans a2⟩

theorem run_append (parser : Parser E M) (j : KnowledgeBaseEntryJob E M)
    (xs ys : List JobEvent) : run parser j (xs ++ ys) = run parser (run parser j xs) ys := by
  simp [run, List.foldl_append]

end KnowledgeBaseEntryJob

/-! ## The claims about the job -/

/-- C8 (as stated, refuted). A job is started, receives the envelope with
status `failed`, status code 200 and message `not found`, and its transport
job finishes without error. The job signals its result with error code 0 and
an empty error text; the status code and the message are in its metadata
only. -/
theorem slotJobResult_failed_envelope_counterexample :
    (KnowledgeBaseEntryJob.run failedEnvelopeParser KnowledgeBaseEntryJob.new
        [JobEvent.start, JobEvent.timeout, JobEvent.data failedEnvelope,
         JobEvent.result { error := 0, errorText := "" }]).error = 0
    ∧ (KnowledgeBaseEntryJob.run failedEnvelopeParser KnowledgeBaseEntryJob.new
        [JobEvent.start, JobEvent.timeout, JobEvent.data failedEnvelope,
         JobEvent.result { error := 0, errorText := "" }]).errorText = ""
    ∧ (KnowledgeBaseEntryJob.run failedEnvelopeParser KnowledgeBaseEntryJob.new
        [JobEvent.start, JobEvent.timeout, JobEvent.data failedEnvelope,
         JobEvent.result { error := 0, errorText := "" }]).metadata
        = { statusString := "failed", statusCode := 200, message := "not found" }
    ∧ KnowledgeBaseEntryJob.countResults
        (KnowledgeBaseEntryJob.run failedEnvelopeParser KnowledgeBaseEntryJob.new
          [JobEvent.start, JobEvent.timeout, JobEvent.data failedEnvelope,
           JobEvent.result { error := 0, errorText := "" }]).effects = 1 := by
  decide

/-- C8 (amended). When the transport job finishes without error,
`slotJobResult` sets no error, whatever the envelope says: error code and
error text of the job stay as they were, which is 0 and empty for a job none
of whose transport jobs failed; the entity and the envelope are stored as the
parser reports them for the received text, and the result is signalled after
that. -/
theorem slotJobResult_success {E M : Type} [Inhabited E] [Inhabited M] (parser : Parser E M)
    (j : KnowledgeBaseEntryJob E M) (job : KJob) (events : List JobEvent)
    (hjob : job.error = 0) (hevents : ∀ e ∈ events, e.isFailure = false) :
    (j.slotJobResult parser job).error = j.error
    ∧ (j.slotJobResult parser job).errorText = j.errorText
    ∧ (j.slotJobResult parser job).knowledgeBase = (parser (fromUtf8 j.m_data)).1
    ∧ (j.slotJobResult parser job).metadata = (parser (fromUtf8 j.m_data)).2
    ∧ (j.slotJobResult parser job).effects
        = j.effects ++ [Effect.parse (fromUtf8 j.m_data),
            Effect.emitResult j.error j.errorText (parser (fromUtf8 j.m_data)).1
              (parser (fromUtf8 j.m_data)).2]
    ∧ (KnowledgeBaseEntryJob.run parser KnowledgeBaseEntryJob.new
        (events ++ [JobEvent.result job])).error = 0
    ∧ (KnowledgeBaseEntryJob.run parser KnowledgeBaseEntryJob.new
        (events ++ [JobEvent.result job])).errorText = "" := by
  have hall : ∀ e ∈ events ++ [JobEvent.result job], e.isFailure = false := by
    intro e he
    rcases List.mem_append.1 he with h | h
    · exact hevents e h
    · rw [List.mem_singleton.1 h]; simp [JobEvent.isFailure, hjob]
  obtain ⟨h1, h2⟩ := KnowledgeBaseEntryJob.run_error_of_no_failure parser
    (events ++ [JobEvent.result job]) (KnowledgeBaseEntryJob.new) hall
  refine ⟨?_, ?_, ?_, ?_, ?_, h1, h2⟩ <;>
    simp [KnowledgeBaseEntryJob.slotJobResult, KnowledgeBaseEntryJob.emitResult, hjob,
      KnowledgeBaseEntryJob.knowledgeBase, KnowledgeBaseEntryJob.metadata]

/-- C8 (amended), at the scenario of the claim. -/
theorem slotJobResult_success_witness :
    (KnowledgeBaseEntryJob.run failedEnvelopeParser KnowledgeBaseEntryJob.new
        ([JobEvent.start, JobEvent.timeout, JobEvent.data failedEnvelope]
          ++ [JobEvent.result { error := 0, errorText := "" }])).error = 0 :=
  (slotJobResult_success failedEnvelopeParser KnowledgeBaseEntryJob.new
    { error := 0, errorText := "" }
    [JobEvent.start, JobEvent.timeout, JobEvent.data failedEnvelope] rfl (by decide)).2.2.2.2.2.1

/-- C9. When the transport job finishes with an error code that is not 0,
`slotJobResult` sets the error code and the error text of the job to exactly
those of the transport job, does not call the parser (the only effect is the
result signal, and the outcome is the same for every parser), and leaves the
entity and the metadata as they were; on a job that has seen no result before,
these are the default values. -/
theorem slotJobResult_transport_error {E M : Type} [Inhabited E] [Inhabited M]
    (parser : Parser E M) (j : KnowledgeBaseEntryJob E M) (job : KJob)
    (events : List JobEvent) (hjob : job.error ≠ 0)
    (hevents : ∀ e ∈ events, e.isResult = false) :
    (j.slotJobResult parser job).error = job.error
    ∧ (j.slotJobResult parser job).errorText = job.errorText
    ∧ (j.slotJobResult parser job).knowledgeBase = j.knowledgeBase
    ∧ (j.slotJobResult parser job).metadata = j.metadata
    ∧ (j.slotJobResult parser job).effects
        = j.effects ++ [Effect.emitResult job.error job.errorText j.m_knowledgeBase
            j.m_metadata]
    ∧ KnowledgeBaseEntryJob.countParses (j.slotJobResult parser job).effects
        = KnowledgeBaseEntryJob.countParses j.effects
    ∧ (∀ other : Parser E M, j.slotJobResult other job = j.slotJobResult parser job)
    ∧ (KnowledgeBaseEntryJob.run parser KnowledgeBaseEntryJob.new
        (events ++ [JobEvent.result job])).knowledgeBase = default
    ∧ (KnowledgeBaseEntryJob.run parser KnowledgeBaseEntryJob.new
        (events ++ [JobEvent.result job])).metadata = default
    ∧ (KnowledgeBaseEntryJob.run parser KnowledgeBaseEntryJob.new
        (events ++ [JobEvent.result job])).error = job.error
    ∧ (KnowledgeBaseEntryJob.run parser KnowledgeBaseEntryJob.new
        (events ++ [JobEvent.result job])).errorText = job.errorText := by
  have hstep : ∀ (k : KnowledgeBaseEntryJob E M) (q : Parser E M),
      k.slotJobResult q job
        = { k with m_job := none, error := job.error, errorText := job.errorText
                   effects := k.effects ++ [Effect.emitResult job.error job.errorText
                     k.m_knowledgeBase k.m_metadata] } := by
    intro k q
    simp [KnowledgeBaseEntryJob.slotJobResult, KnowledgeBaseEntryJob.emitResult, hjob]
  have hparses : ∀ (l : List (Effect E M)) (a : Int) (b : String) (c : E) (d : M),
      KnowledgeBaseEntryJob.countParses (l ++ [Effect.emitResult a b c d])
        = KnowledgeBaseEntryJob.countParses l := by
    intro l a b c d
    induction l with
    | nil => rfl
    | cons e l ih => cases e <;> simp [KnowledgeBaseEntryJob.countParses, ih]
  obtain ⟨r1, r2, _, _⟩ := KnowledgeBaseEntryJob.run_of_no_result parser events
    (KnowledgeBaseEntryJob.new) hevents
  have hrun : KnowledgeBaseEntryJob.run parser KnowledgeBaseEntryJob.new
      (events ++ [JobEvent.result job])
        = (KnowledgeBaseEntryJob.run parser KnowledgeBaseEntryJob.new events).slotJobResult
            parser job := by
    rw [KnowledgeBaseEntryJob.run_append]; rfl
  refine ⟨?_, ?_, ?_, ?_, ?_, ?_, ?_, ?_, ?_, ?_, ?_⟩
  · rw [hstep]
  · rw [hstep]
  · rw [hstep]; rfl
  · rw [hstep]; rfl
  · rw [hstep]
  · rw [hstep]; exact hparses _ _ _ _ _
  · intro other; rw [hstep, hstep]
  · rw [hrun, hstep]; exact r1
  · rw [hrun, hstep]; exact r2
  · rw [hrun, hstep]
  · rw [hrun, hstep]

/-- C9, at a concrete input: a started job whose transport job fails with
code 149 and text `timed out`. -/
theorem slotJobResult_transport_error_witness :
    (KnowledgeBaseEntryJob.run failedEnvelopeParser KnowledgeBaseEntryJob.new
        ([JobEvent.start, JobEvent.timeout]
          ++ [JobEvent.result { error := 149, errorText := "timed out" }])).error = 149
    ∧ (KnowledgeBaseEntryJob.run failedEnvelopeParser KnowledgeBaseEntryJob.new
        ([JobEvent.start, JobEvent.timeout]
          ++ [JobEvent.result { error := 149, errorText := "timed out" }])).metadata
        = default :=
  ⟨(slotJobResult_transport_error failedEnvelopeParser KnowledgeBaseEntryJob.new
      { error := 149, errorText := "timed out" } [JobEvent.start, JobEvent.timeout]
      (by decide) (by decide)).2.2.2.2.2.2.2.2.2.1,
   by decide⟩

/-- C10 (as stated, refuted). A fresh job is started twice and both timers
fire: two transport exchanges begin, and the job has no error. -/
theorem start_twice_counterexample :
    KnowledgeBaseEntryJob.countGets
        (KnowledgeBaseEntryJob.run failedEnvelopeParser KnowledgeBaseEntryJob.new
          [JobEvent.start, JobEvent.start, JobEvent.timeout, JobEvent.timeout]).effects = 2
    ∧ (KnowledgeBaseEntryJob.run failedEnvelopeParser KnowledgeBaseEntryJob.new
          [JobEvent.start, JobEvent.start, JobEvent.timeout, JobEvent.timeout]).error = 0
    ∧ (KnowledgeBaseEntryJob.run failedEnvelopeParser KnowledgeBaseEntryJob.new
          [JobEvent.start, JobEvent.start, JobEvent.timeout, JobEvent.timeout]).errorText
        = "" := by
  decide

/-- C10 (amended). `start` has no state check: in every state it only queues
one more single-shot timer for `doWork` and sets no error; every `doWork`
begins one transport exchange; so a fresh job that is started `n` times and
whose timers fire performs `n` transport exchanges and has no error, exactly
one exchange when it is started once. -/
theorem start_unguarded {E M : Type} [Inhabited E] [Inhabited M] (parser : Parser E M)
    (j : KnowledgeBaseEntryJob E M) (n : Nat) :
    j.start.pending = j.pending + 1
    ∧ j.start.effects = j.effects ++ [Effect.singleShot]
    ∧ j.start.error = j.error
    ∧ j.start.errorText = j.errorText
    ∧ KnowledgeBaseEntryJob.countGets j.doWork.effects
        = KnowledgeBaseEntryJob.countGets j.effects + 1
    ∧ KnowledgeBaseEntryJob.countGets
        (KnowledgeBaseEntryJob.run parser KnowledgeBaseEntryJob.new
          (List.replicate n JobEvent.start ++ List.replicate n JobEvent.timeout)).effects = n
    ∧ (KnowledgeBaseEntryJob.run parser KnowledgeBaseEntryJob.new
          (List.replicate n JobEvent.start ++ List.replicate n JobEvent.timeout)).error = 0
    ∧ KnowledgeBaseEntryJob.countGets
        (KnowledgeBaseEntryJob.run parser KnowledgeBaseEntryJob.new
          [JobEvent.start, JobEvent.timeout]).effects = 1 := by
  obtain ⟨s1, s2, s3, _⟩ := KnowledgeBaseEntryJob.run_starts parser n
    (KnowledgeBaseEntryJob.new : KnowledgeBaseEntryJob E M)
  obtain ⟨t1, t2, _⟩ := KnowledgeBaseEntryJob.run_timeouts parser n
    (KnowledgeBaseEntryJob.run parser KnowledgeBaseEntryJob.new
      (List.replicate n JobEvent.start)) (by rw [s1]; omega)
  refine ⟨rfl, rfl, rfl, rfl, ?_, ?_, ?_, ?_⟩
  · simp only [KnowledgeBaseEntryJob.doWork]
    exact KnowledgeBaseEntryJob.countGets_append_get _ _
  · rw [KnowledgeBaseEntryJob.run_append, t1, s2]
    simp [KnowledgeBaseEntryJob.new, KnowledgeBaseEntryJob.countGets]
  · rw [KnowledgeBaseEntryJob.run_append, t2, s3]
    rfl
  · rfl

/-! ## The claims about completion and about the search query -/

/-- C11. For every transport result delivered to `slotJobResult`, failed or
successful, the job signals its result exactly once, as the last thing it
does, and what the accessors return at that moment is already the final
state: the error code and text of a failed transport job, or the entity and
the metadata the parser reports for the received text. -/
theorem slotJobResult_emits_once {E M : Type} (parser : Parser E M)
    (j : KnowledgeBaseEntryJob E M) (job : KJob) :
    KnowledgeBaseEntryJob.countResults (j.slotJobResult parser job).effects
      = KnowledgeBaseEntryJob.countResults j.effects + 1
    ∧ (j.slotJobResult parser job).effects
        = j.effects ++ (if job.error ≠ 0 then [] else [Effect.parse (fromUtf8 j.m_data)])
          ++ [Effect.emitResult (j.slotJobResult parser job).error
                (j.slotJobResult parser job).errorText
                (j.slotJobResult parser job).knowledgeBase
                (j.slotJobResult parser job).metadata]
    ∧ (j.slotJobResult parser job).error = (if job.error ≠ 0 then job.error else j.error)
    ∧ (j.slotJobResult parser job).errorText
        = (if job.error ≠ 0 then job.errorText else j.errorText)
    ∧ (j.slotJobResult parser job).knowledgeBase
        = (if job.error ≠ 0 then j.knowledgeBase else (parser (fromUtf8 j.m_data)).1)
    ∧ (j.slotJobResult parser job).metadata
        = (if job.error ≠ 0 then j.metadata else (parser (fromUtf8 j.m_data)).2) := by
  have hcount : ∀ (l : List (Effect E M)) (a : Int) (b : String) (c : E) (d : M),
      KnowledgeBaseEntryJob.countResults (l ++ [Effect.emitResult a b c d])
        = KnowledgeBaseEntryJob.countResults l + 1 := by
    intro l a b c d
    induction l with
    | nil => rfl
    | cons e l ih => cases e <;> simp [KnowledgeBaseEntryJob.countResults, ih]
  have hparse : ∀ (l : List (Effect E M)) (t : String),
      KnowledgeBaseEntryJob.countResults (l ++ [Effect.parse t])
        = KnowledgeBaseEntryJob.countResults l := by
    intro l t
    induction l with
    | nil => rfl
    | cons e l ih => cases e <;> simp [KnowledgeBaseEntryJob.countResults, ih]
  by_cases h : job.error = 0
  · simp [KnowledgeBaseEntryJob.slotJobResult, KnowledgeBaseEntryJob.emitResult, h,
      KnowledgeBaseEntryJob.knowledgeBase, KnowledgeBaseEntryJob.metadata]
    have hsplit : ∀ (l : List (Effect E M)) (x y : Effect E M), l ++ [x, y] = (l ++ [x]) ++ [y] := by
      intro l x y; simp
    rw [hsplit, hcount, hparse]
  · simp [KnowledgeBaseEntryJob.slotJobResult, KnowledgeBaseEntryJob.emitResult, h,
      KnowledgeBaseEntryJob.knowledgeBase, KnowledgeBaseEntryJob.metadata, hcount]

/-- C19. For all arguments, the query items that the eight-argument
`searchContents` appends to the URL of `createUrl` are, in this order,
categories, distribution, license, user, search, sortmode, page and pagesize:
`user` is there exactly when the person is not empty, each of the others is
there once whatever its value, `categories` is the category ids joined by `x`,
`page` and `pagesize` are the decimal forms of the arguments. They come after
the items the address text has of its own, and are all the query items of the
URL when that text contains no `?`. -/
theorem searchContents_items {Store : Type} (p : Provider Store) (categories : List Category)
    (person : String) (distributions : List Distribution) (licenses : List License)
    (search : String) (sortMode : SortMode) (page pageSize : Nat) :
    (p.searchContents categories person distributions licenses search sortMode page
        pageSize).1.m_request.url.queryItems
      = (QUrl.fromString (p.d.m_baseUrl.toString ++ "content/data")).queryItems
        ++ ([("categories", join "x" (categories.map (fun c => c.id))),
             ("distribution", join "," (distributions.map (fun d => stringOfUInt d.id))),
             ("license", join "," (licenses.map (fun l => stringOfUInt l.id)))]
            ++ (if person = "" then [] else [("user", person)])
            ++ [("search", search),
                ("sortmode", match sortMode with
                  | SortMode.Newest => "new"
                  | SortMode.Alphabetical => "alpha"
                  | SortMode.Rating => "high"
                  | SortMode.Downloads => "down"),
                ("page", toString page), ("pagesize", toString pageSize)])
    ∧ ('?' ∉ (p.d.m_baseUrl.toString ++ "content/data").data →
        (p.searchContents categories person distributions licenses search sortMode page
            pageSize).1.m_request.url.queryItems
          = [("categories", join "x" (categories.map (fun c => c.id))),
             ("distribution", join "," (distributions.map (fun d => stringOfUInt d.id))),
             ("license", join "," (licenses.map (fun l => stringOfUInt l.id)))]
            ++ (if person = "" then [] else [("user", person)])
            ++ [("search", search),
                ("sortmode", match sortMode with
                  | SortMode.Newest => "new"
                  | SortMode.Alphabetical => "alpha"
                  | SortMode.Rating => "high"
                  | SortMode.Downloads => "down"),
                ("page", toString page), ("pagesize", toString pageSize)]
        ∧ ((p.searchContents categories person distributions licenses search sortMode page
            pageSize).1.m_request.url.queryItems).map Prod.fst
          = ["categories", "distribution", "license"]
            ++ (if person = "" then [] else ["user"])
            ++ ["search", "sortmode", "page", "pagesize"]) := by
  have hperson : (if isEmpty person then ([] : List (String × String)) else [("user", person)])
      = (if person = "" then [] else [("user", person)]) := by
    by_cases h : person = ""
    · simp [h, isEmpty]
    · simp [h, (isEmpty_eq_false_iff person).2 h]
  have hitems := Provider.searchContents_queryItems p categories person distributions licenses
    search sortMode page pageSize
  rw [Provider.createUrl_queryItems, hperson] at hitems
  refine ⟨hitems, ?_⟩
  intro hq
  rw [hitems, fromString_queryItems_of_no_query _ hq]
  refine ⟨rfl, ?_⟩
  by_cases h : person = "" <;> simp [h]

/-- C19, at a concrete input: two categories, no person, page 0 of size 10 on
the sample provider. -/
theorem searchContents_items_witness :
    '?' ∉ (sampleProvider.d.m_baseUrl.toString ++ "content/data").data
    ∧ ((sampleProvider.searchContents [{ id := "1" }, { id := "2" }] "" [] [] "foo"
          SortMode.Downloads 0 10).1.m_request.url.queryItems).map Prod.fst
        = ["categories", "distribution", "license", "search", "sortmode", "page", "pagesize"]
    ∧ (sampleProvider.searchContents [{ id := "1" }, { id := "2" }] "" [] [] "foo"
          SortMode.Downloads 0 10).1.m_request.url.toString
        = "http://example.org/v1/content/data?categories=1x2&distribution=&license=&search=foo&sortmode=down&page=0&pagesize=10" :=
  ⟨by decide,
   ((searchContents_items sampleProvider [{ id := "1" }, { id := "2" }] "" [] [] "foo"
      SortMode.Downloads 0 10).2 (by decide)).2,
   by decide⟩

/-- C20 (what the code does). The `distribution` and `license` values that
`searchContents` sends are the ids joined by `,` after each id went through
`QString(uint)`, which makes the one character with that code, not the
decimal number: for the distributions 2200 and 1100 and the license 3 the
values are the characters U+0898 and U+044C joined by a comma, and the
character U+0003, instead of `2200,1100` and `3`. -/
theorem searchContents_distribution_license_values {Store : Type} (p : Provider Store)
    (categories : List Category) (person : String) (distributions : List Distribution)
    (licenses : List License) (search : String) (sortMode : SortMode) (page pageSize : Nat) :
    ((p.searchContents categories person distributions licenses search sortMode page
        pageSize).1.m_request.url.queryItems.drop
          (p.createUrl "content/data").1.queryItems.length).lookup "distribution"
      = some (join "," (distributions.map (fun d => stringOfUInt d.id)))
    ∧ ((p.searchContents categories person distributions licenses search sortMode page
        pageSize).1.m_request.url.queryItems.drop
          (p.createUrl "content/data").1.queryItems.length).lookup "license"
      = some (join "," (licenses.map (fun l => stringOfUInt l.id)))
    ∧ (sampleProvider.searchContents [] "" [{ id := 2200 }, { id := 1100 }] [{ id := 3 }] ""
          SortMode.Newest 0 10).1.m_request.url.queryItems
        = [("categories", ""),
           ("distribution", String.mk [Char.ofNat 0x898, ',', Char.ofNat 0x44C]),
           ("license", String.mk [Char.ofNat 3]),
           ("search", ""), ("sortmode", "new"), ("page", "0"), ("pagesize", "10")]
    ∧ (sampleProvider.searchContents [] "" [{ id := 2200 }, { id := 1100 }] [{ id := 3 }] ""
          SortMode.Newest 0 10).1.m_request.url.queryItems.lookup "distribution"
        ≠ some (join "," ["2200", "1100"])
    ∧ (sampleProvider.searchContents [] "" [{ id := 2200 }, { id := 1100 }] [{ id := 3 }] ""
          SortMode.Newest 0 10).1.m_request.url.queryItems.lookup "license"
        ≠ some "3" := by
  refine ⟨?_, ?_, by decide, by decide, by decide⟩
  · rw [Provider.searchContents_queryItems, List.drop_left]
    simp [List.lookup]
  · rw [Provider.searchContents_queryItems, List.drop_left]
    simp [List.lookup]

/-! ## Helper lemmas: the format parser -/

theorem decodeEntity_obj (reg : String → EntityType) (ty : EntityType)
    (members : List (String × Json)) :
    decodeEntity reg ty (Json.obj members)
      = some (Entity.mk (fieldValue ty.idType (members.lookup ty.idKey))
          (decodeFields members ty.fields) (decodeNested reg ty.nested members)
          (extendedOf ty.recognised members)) := by
  simp [decodeEntity]

theorem decodeEntity_isSome (reg : String → EntityType) (ty : EntityType) (j : Json) :
    (decodeEntity reg ty j).isSome = j.isObject := by
  cases j <;> simp [decodeEntity, Json.isObject]

theorem decodeEntity_eq_none (reg : String → EntityType) (ty : EntityType) (j : Json)
    (h : j.isObject = false) : decodeEntity reg ty j = none := by
  cases j <;> simp_all [decodeEntity, Json.isObject]

/-- A list payload is decoded element by element, keeping what decodes. -/
theorem decodeList_eq_filterMap (reg : String → EntityType) (ty : EntityType)
    (items : List Json) : decodeList reg ty items = items.filterMap (decodeEntity reg ty) := by
  induction items with
  | nil => simp [decodeList]
  | cons j js ih =>
      rw [decodeList, List.filterMap_cons]
      cases h : decodeEntity reg ty j <;> simp [ih]

/-- The decoded list, with every entry wrapped, is the list of the decodings of
the objects among the elements. -/
theorem decodeList_map_some (reg : String → EntityType) (ty : EntityType) (items : List Json) :
    (decodeList reg ty items).map some
      = (items.filter Json.isObject).map (decodeEntity reg ty) := by
  induction items with
  | nil => simp [decodeList]
  | cons j js ih =>
      rw [decodeList]
      cases hj : j.isObject
      · rw [decodeEntity_eq_none reg ty j hj]
        simp [List.filter_cons, hj, ih]
      · have hs := decodeEntity_isSome reg ty j
        rw [hj] at hs
        obtain ⟨e, he⟩ := Option.isSome_iff_exists.1 hs
        simp [List.filter_cons, hj, he, ih]

theorem decodeList_length (reg : String → EntityType) (ty : EntityType) (items : List Json) :
    (decodeList reg ty items).length = items.countP Json.isObject := by
  have h := congrArg List.length (decodeList_map_some reg ty items)
  simpa [List.countP_eq_length_filter] using h

theorem filter_eq_self_of_all {α : Type} (p : α → Bool) (l : List α) (h : ∀ x ∈ l, p x = true) :
    l.filter p = l := by
  exact List.filter_eq_self.2 h

theorem getElem?_of_map_some_eq {α β : Type} (f : α → Option β) (xs : List β) (ys : List α)
    (h : xs.map some = ys.map f) (i : Nat) : xs[i]? = ys[i]?.bind f := by
  have hi := congrArg (fun l => l[i]?) h
  simp only [List.getElem?_map] at hi
  cases hx : xs[i]? <;> cases hy : ys[i]? <;> simp_all

/-- The parse of a successful envelope with an array payload. -/
theorem parse_list (reg : String → EntityType) (ty : EntityType) (doc : Json) (md : Metadata)
    (items : List Json) (henv : decodeEnvelope doc = Except.ok (md, some (Json.arr items)))
    (hok : md.isSuccess = true) :
    JsonParser.parse reg ty doc
      = { metadata := md, itemList := decodeList reg ty items, error := none } := by
  simp [JsonParser.parse, henv, hok]

/-- The parse of a successful envelope with an object payload. -/
theorem parse_item (reg : String → EntityType) (ty : EntityType) (doc : Json) (md : Metadata)
    (members : List (String × Json))
    (henv : decodeEnvelope doc = Except.ok (md, some (Json.obj members)))
    (hok : md.isSuccess = true) :
    (JsonParser.parse reg ty doc).item = decodeEntity reg ty (Json.obj members)
    ∧ (JsonParser.parse reg ty doc).error = none := by
  simp [JsonParser.parse, henv, hok, decodeEntity_obj, JsonParser.item]

theorem lookup_extendedOf (recognised : List String) (members : List (String × Json))
    (key : String) (h : key ∉ recognised) :
    (extendedOf recognised members).lookup key = (members.lookup key).map Json.text := by
  induction members with
  | nil => simp [extendedOf]
  | cons m ms ih =>
      obtain ⟨k, v⟩ := m
      simp only [extendedOf, List.elem_eq_mem] at ih ⊢
      by_cases hk : key = k
      · subst hk
        simp [List.filter_cons, h, List.lookup_cons]
      · have hne : (key == k) = false := by simpa using hk
        by_cases hr : k ∈ recognised
        · simp [List.filter_cons, hr, List.lookup_cons, hne, ih]
        · simp [List.filter_cons, hr, List.lookup_cons, hne, ih]

theorem lookup_decodeFields (members : List (String × Json)) (fields : List (String × FieldType))
    (key : String) :
    (decodeFields members fields).lookup key
      = (fields.lookup key).map (fun fty => fieldValue fty (members.lookup key)) := by
  induction fields with
  | nil => simp [decodeFields]
  | cons f fs ih =>
      obtain ⟨k, fty⟩ := f
      unfold decodeFields at ih ⊢
      by_cases hk : key = k
      · subst hk; simp [List.lookup_cons]
      · have hne : (key == k) = false := by simpa using hk
        simp [List.lookup_cons, hne, ih]

theorem lookup_decodeNested (reg : String → EntityType) (nestedKeys : List (String × String))
    (members : List (String × Json)) (key tag : String) (items : List Json)
    (htag : nestedKeys.lookup key = some tag) (hmem : members.lookup key = some (Json.arr items)) :
    (decodeNested reg nestedKeys members).lookup key = some (decodeList reg (reg tag) items) := by
  induction members with
  | nil => simp at hmem
  | cons m ms ih =>
      obtain ⟨k, v⟩ := m
      by_cases hk : key = k
      · subst hk
        have hv : v = Json.arr items := by simpa [List.lookup_cons] using hmem
        subst hv
        rw [decodeNested]
        simp [htag, List.lookup_cons]
      · have hne : (key == k) = false := by simpa using hk
        have hrest : ms.lookup key = some (Json.arr items) := by
          simpa [List.lookup_cons, hne] using hmem
        rw [decodeNested]
        cases hl : nestedKeys.lookup k with
        | none => simpa using ih hrest
        | some t =>
            cases v <;> simp [List.lookup_cons, hne, ih hrest]

theorem lookup_decodeNested_none (reg : String → EntityType)
    (nestedKeys : List (String × String)) (members : List (String × Json)) (key : String)
    (hmem : members.lookup key = none) :
    (decodeNested reg nestedKeys members).lookup key = none := by
  induction members with
  | nil => simp [decodeNested]
  | cons m ms ih =>
      obtain ⟨k, v⟩ := m
      by_cases hk : key = k
      · subst hk; simp [List.lookup_cons] at hmem
      · have hne : (key == k) = false := by simpa using hk
        have hrest : ms.lookup key = none := by simpa [List.lookup_cons, hne] using hmem
        rw [decodeNested]
        cases hl : nestedKeys.lookup k with
        | none => simpa using ih hrest
        | some t => cases v <;> simp [List.lookup_cons, hne, ih hrest]

/-! ## The claims about the format parser -/

/-- C12. For every successful envelope whose payload is an array of `n`
well-formed entity objects, parsing reports no error, the item list has
exactly `n` entries, and its `i`-th entry is the decoding of the `i`-th
element of the array. -/
theorem parse_list_preserves_order (reg : String → EntityType) (ty : EntityType) (doc : Json)
    (md : Metadata) (items : List Json)
    (henv : decodeEnvelope doc = Except.ok (md, some (Json.arr items)))
    (hok : md.isSuccess = true) (hwf : ∀ j ∈ items, j.isObject = true) :
    (JsonParser.parse reg ty doc).error = none
    ∧ (JsonParser.parse reg ty doc).itemList.length = items.length
    ∧ (JsonParser.parse reg ty doc).itemList.map some = items.map (decodeEntity reg ty)
    ∧ ∀ i : Nat,
        (JsonParser.parse reg ty doc).itemList[i]? = items[i]?.bind (decodeEntity reg ty) := by
  have hmap : (decodeList reg ty items).map some = items.map (decodeEntity reg ty) := by
    rw [decodeList_map_some, filter_eq_self_of_all _ _ hwf]
  rw [parse_list reg ty doc md items henv hok]
  refine ⟨rfl, ?_, hmap, getElem?_of_map_some_eq _ _ _ hmap⟩
  have := congrArg List.length hmap
  simpa using this

/-- C12, on the documents of `testCategory` and `testLicense`: four categories,
the first with id `1`; three licenses, the second with id 3. -/
theorem parse_list_preserves_order_witness :
    (JsonParser.parse registry categoryType categoryDocument).itemList.length = 4
    ∧ ((JsonParser.parse registry categoryType categoryDocument).itemList[0]?).map Entity.id
        = some (FieldValue.text "1")
    ∧ ((JsonParser.parse registry categoryType categoryDocument).itemList[0]?).bind
          (fun e => e.field "name") = some (FieldValue.text "KDE Wallpaper 640x480")
    ∧ (JsonParser.parse registry licenseType licenseDocument).itemList.length = 3
    ∧ ((JsonParser.parse registry licenseType licenseDocument).itemList[1]?).bind
          (fun e => e.field "name") = some (FieldValue.text "Artistic 2.0") :=
  ⟨(parse_list_preserves_order registry categoryType categoryDocument
      { statusString := "ok", statusCode := 100, message := "" }
      [Json.obj [("id", Json.num 1), ("name", Json.str "KDE Wallpaper 640x480")],
       Json.obj [("id", Json.num 2), ("name", Json.str "KDE Wallpaper 800x600")],
       Json.obj [("id", Json.num 3), ("name", Json.str "KDE Wallpaper 1024x768")],
       Json.obj [("id", Json.num 4), ("name", Json.str "KDE Wallpaper 1280x1024")]]
      rfl rfl (by decide)).2.1,
    by decide, by decide, by decide, by decide⟩

/-- C13. For every entity object and every wire key that is not in the
recognised field set of the entity type, the extended attributes of the
decoded entity bind that key to the wire value, as a string; the decoded
entity is the item of a successful single-item envelope around the object
and an entry of the list of a list envelope. -/
theorem decode_extended_attributes (reg : String → EntityType) (ty : EntityType)
    (members : List (String × Json)) (key : String) (value : Json)
    (hkey : key ∉ ty.recognised) (hvalue : members.lookup key = some value) :
    ∃ e, decodeEntity reg ty (Json.obj members) = some e
      ∧ e.extendedAttributes.lookup key = some value.text
      ∧ e.extendedAttribute key = value.text
      ∧ (∀ doc md, decodeEnvelope doc = Except.ok (md, some (Json.obj members)) →
          md.isSuccess = true → (JsonParser.parse reg ty doc).item = some e)
      ∧ (∀ doc md, decodeEnvelope doc = Except.ok (md, some (Json.arr [Json.obj members])) →
          md.isSuccess = true → (JsonParser.parse reg ty doc).itemList = [e]) := by
  refine ⟨_, decodeEntity_obj reg ty members, ?_, ?_, ?_, ?_⟩
  · simp [Entity.extendedAttributes, lookup_extendedOf _ _ _ hkey, hvalue]
  · simp [Entity.extendedAttribute, Entity.extendedAttributes, lookup_extendedOf _ _ _ hkey,
      hvalue]
  · intro doc md henv hok
    rw [(parse_item reg ty doc md members henv hok).1, decodeEntity_obj]
  · intro doc md henv hok
    rw [parse_list reg ty doc md _ henv hok]
    simp [decodeList, decodeEntity_obj]

/-- C13, on the scenario of the testable properties and on the document of
`testPerson`: the unknown field is the one extended attribute, and the
favourite music of the person is `Iron Maiden`. -/
theorem decode_extended_attributes_witness :
    ((JsonParser.parse registry genericType genericDocument).item).map
        (fun e => (e.id, e.field "name", e.extendedAttributes))
      = some (FieldValue.text "42", some (FieldValue.text "X"), [("unknownfield", "Y")])
    ∧ ((JsonParser.parse registry personType personDocument).item).map
        (fun e => e.extendedAttribute "favouritemusic") = some "Iron Maiden"
    ∧ ∃ e, decodeEntity registry genericType
          (Json.obj [("id", Json.str "42"), ("name", Json.str "X"),
            ("unknownfield", Json.str "Y")]) = some e
        ∧ e.extendedAttribute "unknownfield" = "Y" :=
  ⟨by decide, by decide,
    (decode_extended_attributes registry genericType
      [("id", Json.str "42"), ("name", Json.str "X"), ("unknownfield", Json.str "Y")]
      "unknownfield" (Json.str "Y") (by decide) rfl).imp
      (fun _ h => ⟨h.1, h.2.2.1⟩)⟩

/-- C14 (as stated, refuted). In the document of `testDistribution` the second
element has the wire id 2200; the decoded id is the unsigned integer 2200, as
the test compares it with `2200u`, not the string `2200`. The same holds
for the license with wire id 3. -/
theorem decode_id_counterexample :
    ((JsonParser.parse registry distributionType distributionDocument).itemList[1]?).map
        Entity.id = some (FieldValue.number 2200)
    ∧ ((JsonParser.parse registry distributionType distributionDocument).itemList[1]?).map
        Entity.id ≠ some (FieldValue.text "2200")
    ∧ ((JsonParser.parse registry licenseType licenseDocument).itemList[1]?).map Entity.id
        = some (FieldValue.number 3) := by
  decide

/-- C14 (amended). For every entity object whose wire id is a JSON integer
`n`: when the id of the entity type is string-typed, the decoded id is the
string of the decimal digits of `n`, whatever the size of `n`; when the id of
the entity type is an unsigned integer (Distribution, License), the decoded
id is the number `n`. -/
theorem decode_id (reg : String → EntityType) (ty : EntityType)
    (members : List (String × Json)) (n : Int)
    (hid : members.lookup ty.idKey = some (Json.num n)) :
    ∃ e, decodeEntity reg ty (Json.obj members) = some e
      ∧ (ty.idType = FieldType.text → e.id = FieldValue.text (toString n))
      ∧ (ty.idType = FieldType.number → e.id = FieldValue.number n) := by
  refine ⟨_, decodeEntity_obj reg ty members, ?_, ?_⟩
  · intro h
    simp [Entity.id, hid, h, fieldValue, coerce, Json.text, Json.render]
  · intro h
    simp [Entity.id, hid, h, fieldValue, coerce]

/-- C14 (amended), on the documents of `testCategory` and `testMessage`: the
wire ids 1 and 8490 decode to the strings `1` and `8490`. -/
theorem decode_id_witness :
    (∃ e, decodeEntity registry categoryType
        (Json.obj [("id", Json.num 1), ("name", Json.str "KDE Wallpaper 640x480")]) = some e
      ∧ e.id = FieldValue.text "1")
    ∧ ((JsonParser.parse registry categoryType categoryDocument).item).map Entity.id
        = some (FieldValue.text "1")
    ∧ ((JsonParser.parse registry messageType messageDocument).item).map Entity.id
        = some (FieldValue.text "8490") :=
  ⟨(decode_id registry categoryType
      [("id", Json.num 1), ("name", Json.str "KDE Wallpaper 640x480")] 1 rfl).imp
      (fun _ h => ⟨h.1, h.2.1 rfl⟩),
    by decide, by decide⟩

/-- C15. For every entity object in which a recognised field is absent or
null, decoding succeeds and the field of the decoded entity has the empty
value of its type; an absent or null identity is empty as well, and an
absent nested field is the empty sequence. -/
theorem decode_missing_field (reg : String → EntityType) (ty : EntityType)
    (members : List (String × Json)) (key : String) (fty : FieldType)
    (hfield : ty.fields.lookup key = some fty)
    (hmissing : members.lookup key = none ∨ members.lookup key = some Json.null) :
    ∃ e, decodeEntity reg ty (Json.obj members) = some e
      ∧ e.field key = some fty.empty
      ∧ ((members.lookup ty.idKey = none ∨ members.lookup ty.idKey = some Json.null) →
          e.id = ty.idType.empty)
      ∧ (∀ nestedKey, members.lookup nestedKey = none → e.children nestedKey = []) := by
  have hempty : ∀ (t : FieldType) (v : Option Json), (v = none ∨ v = some Json.null) →
      fieldValue t v = t.empty := by
    intro t v hv
    rcases hv with h | h <;> subst h <;> cases t <;>
      simp [fieldValue, coerce, FieldType.empty, Json.text]
  refine ⟨_, decodeEntity_obj reg ty members, ?_, ?_, ?_⟩
  · simp [Entity.field, Entity.fields, lookup_decodeFields, hfield, hempty fty _ hmissing]
  · intro hid
    simp [Entity.id, hempty ty.idType _ hid]
  · intro nestedKey hnone
    simp [Entity.children, Entity.nested, lookup_decodeNested_none reg ty.nested members
      nestedKey hnone]

/-- C15, on the document of `testPerson`: the homepage is null on the wire and
empty in the decoded person, which is valid. -/
theorem decode_missing_field_witness :
    (∃ e, decodeEntity registry personType
        (Json.obj [("personid", Json.str "lpapp"), ("homepage", Json.null)]) = some e
      ∧ e.field "homepage" = some (FieldValue.text ""))
    ∧ ((JsonParser.parse registry personType personDocument).item).map
        (fun e => (e.field "homepage", e.isValid, e.id, e.field "city"))
      = some (some (FieldValue.text ""), true, FieldValue.text "lpapp",
          some (FieldValue.text "Helsinki")) :=
  ⟨(decode_missing_field registry personType
      [("personid", Json.str "lpapp"), ("homepage", Json.null)] "homepage" FieldType.text
      (by decide) (Or.inr rfl)).imp (fun _ h => ⟨h.1, h.2.1⟩),
    by decide⟩

/-- C16. For every envelope whose top-level keys bind `status` to the string
`s`, `statuscode` to the integer `c` and `message` to the string `m` or to
null, parsing yields the metadata (`s`, `c`, `m`), a null message being the
empty string, whatever else the envelope holds; without a `data` key there is
no error and no item. -/
theorem parse_metadata (reg : String → EntityType) (ty : EntityType)
    (members : List (String × Json)) (s : String) (c : Int) (m : String)
    (hstatus : members.lookup "status" = some (Json.str s))
    (hcode : members.lookup "statuscode" = some (Json.num c))
    (hmessage : members.lookup "message" = some (Json.str m)
      ∨ (members.lookup "message" = some Json.null ∧ m = "")) :
    (JsonParser.parse reg ty (Json.obj members)).metadata
      = { statusString := s, statusCode := c, message := m }
    ∧ (members.lookup "data" = none →
        (JsonParser.parse reg ty (Json.obj members)).error = none
        ∧ (JsonParser.parse reg ty (Json.obj members)).itemList = []) := by
  have henv : ∃ payload, decodeEnvelope (Json.obj members)
      = Except.ok ({ statusString := s, statusCode := c, message := m }, payload)
      ∧ (members.lookup "data" = none → payload = none) := by
    rcases hmessage with h | ⟨h, rfl⟩
    · exact ⟨payloadOf members, by simp only [decodeEnvelope, hstatus, hcode, h],
        fun hd => by simp [payloadOf, hd]⟩
    · exact ⟨payloadOf members, by simp only [decodeEnvelope, hstatus, hcode, h],
        fun hd => by simp [payloadOf, hd]⟩
  obtain ⟨payload, hdec, hnone⟩ := henv
  constructor
  · simp only [JsonParser.parse, hdec]
    split
    · rfl
    · split
      · rfl
      · rfl
      · split <;> rfl
      · rfl
  · intro hd
    rw [hnone hd] at hdec
    simp only [JsonParser.parse, hdec]
    split <;> exact ⟨rfl, rfl⟩

/-- C16, on the document of `testMetadata`: status `ok`, status code 100 and a
null message, without data. -/
theorem parse_metadata_witness :
    (JsonParser.parse registry genericType metadataDocument).metadata
      = { statusString := "ok", statusCode := 100, message := "" }
    ∧ (JsonParser.parse registry genericType metadataDocument).error = none
    ∧ (JsonParser.parse registry genericType metadataDocument).itemList.length = 0 :=
  ⟨(parse_metadata registry genericType
      [("status", Json.str "ok"), ("statuscode", Json.num 100), ("message", Json.null)]
      "ok" 100 "" rfl rfl (Or.inr ⟨rfl, rfl⟩)).1,
    by decide, by decide⟩

/-- C17. For every entity object with a nested multi-valued field given as an
array of `k` sub-objects, the corresponding sequence of the decoded entity
has exactly `k` entries, and its `i`-th entry is the `i`-th sub-object decoded
by the decoder that also decodes top-level entities, with the type of the
sub-entities. -/
theorem decode_nested (reg : String → EntityType) (ty : EntityType)
    (members : List (String × Json)) (key tag : String) (items : List Json)
    (htag : ty.nested.lookup key = some tag)
    (hmem : members.lookup key = some (Json.arr items))
    (hobjects : ∀ j ∈ items, j.isObject = true) :
    ∃ e, decodeEntity reg ty (Json.obj members) = some e
      ∧ (e.children key).length = items.length
      ∧ (e.children key).map some = items.map (decodeEntity reg (reg tag))
      ∧ ∀ i : Nat, (e.children key)[i]? = items[i]?.bind (decodeEntity reg (reg tag)) := by
  have hmap : (decodeList reg (reg tag) items).map some
      = items.map (decodeEntity reg (reg tag)) := by
    rw [decodeList_map_some, filter_eq_self_of_all _ _ hobjects]
  have hchildren : ∀ e, e = Entity.mk (fieldValue ty.idType (members.lookup ty.idKey))
        (decodeFields members ty.fields) (decodeNested reg ty.nested members)
        (extendedOf ty.recognised members) →
      e.children key = decodeList reg (reg tag) items := by
    intro e he
    subst he
    simp [Entity.children, Entity.nested, lookup_decodeNested reg ty.nested members key tag
      items htag hmem]
  refine ⟨_, decodeEntity_obj reg ty members, ?_, ?_, ?_⟩
  · rw [hchildren _ rfl]
    have := congrArg List.length hmap
    simpa using this
  · rw [hchildren _ rfl]; exact hmap
  · rw [hchildren _ rfl]; exact getElem?_of_map_some_eq _ _ _ hmap

/-- C17, on the documents of `testContent` and `testComment`: three icons, the
second 32 wide; three videos, the first at `video1.mpg`; one child comment,
with id `315`. -/
theorem decode_nested_witness :
    (∃ e, decodeEntity registry contentType
        (Json.obj [("id", Json.num 100),
          ("icon", Json.arr [Json.obj [("width", Json.num 16)],
            Json.obj [("width", Json.num 32)], Json.obj [("width", Json.num 64)]])]) = some e
      ∧ (e.children "icon").length = 3)
    ∧ ((JsonParser.parse registry contentType contentDocument).item).map
        (fun e => ((e.children "icon").length,
          ((e.children "icon")[1]?).bind (fun icon => icon.field "width"),
          (e.children "video").length,
          ((e.children "video")[0]?).bind (fun video => video.field "link")))
      = some (3, some (FieldValue.number 32), 3,
          some (FieldValue.text "https://www.KDE-Look.org/video/video1.mpg"))
    ∧ ((JsonParser.parse registry commentType commentDocument).item).map
        (fun e => (e.children "children").map Entity.id) = some [FieldValue.text "315"] :=
  ⟨(decode_nested registry contentType
      [("id", Json.num 100),
       ("icon", Json.arr [Json.obj [("width", Json.num 16)],
         Json.obj [("width", Json.num 32)], Json.obj [("width", Json.num 64)]])]
      "icon" "icon"
      [Json.obj [("width", Json.num 16)], Json.obj [("width", Json.num 32)],
        Json.obj [("width", Json.num 64)]]
      (by decide) rfl (by decide)).imp (fun _ h => ⟨h.1, h.2.1⟩),
    by decide, by decide⟩

/-- C18. For every successful list envelope with `N` elements of which `K` are
malformed, parsing reports no error and the item list has exactly `N - K`
entries: the decodings of the well-formed elements, in their original
order. -/
theorem parse_list_skips_malformed (reg : String → EntityType) (ty : EntityType) (doc : Json)
    (md : Metadata) (items : List Json)
    (henv : decodeEnvelope doc = Except.ok (md, some (Json.arr items)))
    (hok : md.isSuccess = true) :
    (JsonParser.parse reg ty doc).error = none
    ∧ (JsonParser.parse reg ty doc).itemList.length
        = items.length - items.countP (fun j => !j.isObject)
    ∧ (JsonParser.parse reg ty doc).itemList.map some
        = (items.filter Json.isObject).map (decodeEntity reg ty)
    ∧ (JsonParser.parse reg ty doc).itemList = items.filterMap (decodeEntity reg ty) := by
  rw [parse_list reg ty doc md items henv hok]
  refine ⟨rfl, ?_, decodeList_map_some reg ty items, decodeList_eq_filterMap reg ty items⟩
  show (decodeList reg ty items).length = _
  rw [decodeList_length]
  have h := List.length_eq_countP_add_countP (fun j => Json.isObject j) items
  have h2 : List.countP (fun a => decide ¬Json.isObject a = true) items
      = List.countP (fun j => !j.isObject) items := by
    congr 1
    funext a
    cases Json.isObject a <;> simp
  rw [h2] at h
  have h3 : List.countP Json.isObject items = List.countP (fun j => Json.isObject j) items := rfl
  omega

/-- C18, on a list of four elements of which a number and a string are
malformed: two entries are left, the first and the last element. -/
theorem parse_list_skips_malformed_witness :
    (JsonParser.parse registry categoryType brokenListDocument).itemList.length = 4 - 2
    ∧ (JsonParser.parse registry categoryType brokenListDocument).itemList.map Entity.id
        = [FieldValue.text "1", FieldValue.text "3"]
    ∧ (JsonParser.parse registry categoryType brokenListDocument).error = none :=
  ⟨(parse_list_skips_malformed registry categoryType brokenListDocument
      { statusString := "ok", statusCode := 100, message := "" }
      [Json.obj [("id", Json.num 1), ("name", Json.str "first")], Json.num 7,
        Json.str "oops", Json.obj [("id", Json.num 3)]] rfl rfl).2.1,
    by decide, by decide⟩

/-! ## Helper lemmas: string maps and post jobs -/

theorem lookup_filter_ne (m : StringMap) (key other : String) (h : other ≠ key) :
    (m.filter (fun e => e.1 != key)).lookup other = m.lookup other := by
  induction m with
  | nil => rfl
  | cons e rest ih =>
      obtain ⟨k, v⟩ := e
      by_cases hk : k = key
      · subst hk
        have hne : (other == k) = false := by simpa using h
        simp [List.filter_cons, List.lookup_cons, hne, ih]
      · by_cases ho : other = k
        · subst ho
          simp [List.filter_cons, hk, List.lookup_cons]
        · have hne : (other == k) = false := by simpa using ho
          simp [List.filter_cons, hk, List.lookup_cons, hne, ih]

/-- The value of a key after `insert`. -/
theorem StringMap.value_insert (m : StringMap) (key value other : String) :
    (m.insert key value).value other = if other = key then some value else m.value other := by
  by_cases h : other = key
  · subst h
    simp [StringMap.insert, StringMap.value, List.lookup_cons]
  · have hne : (other == key) = false := by simpa using h
    simp [StringMap.insert, StringMap.value, List.lookup_cons, hne, h, lookup_filter_ne m key other h]

theorem StringMap.insert_ne_nil (m : StringMap) (key value : String) :
    m.insert key value ≠ [] := by
  simp [StringMap.insert]

namespace Provider

variable {Store : Type}

theorem createRequestPath_snd (p : Provider Store) (path : String) :
    (p.createRequestPath path).2 = p.detach := by
  simp [createRequestPath, detach_detach]

theorem postJobPath_fst (p : Provider Store) (path : String) (parameters : StringMap) :
    (p.postJobPath path parameters).1.m_request = (p.createRequestPath path).1
    ∧ (p.postJobPath path parameters).1.m_parameters = parameters := by
  simp [postJobPath]

/-- The query items that `searchKnowledgeBase` adds. -/
theorem knowledgeBaseItems_eq (p : Provider Store) (content : Content) (search : String)
    (sortMode : SortMode) (page pageSize : Int) :
    p.knowledgeBaseItems content search sortMode page pageSize
      = (if content.isValid then [("content", content.id)] else [])
        ++ [("search", search),
            ("sortmode", match sortMode with
              | SortMode.Newest => "new"
              | SortMode.Alphabetical => "alpha"
              | SortMode.Rating => "high"
              | SortMode.Downloads => "new"),
            ("page", toString page), ("pagesize", toString pageSize)] := by
  have hitems : (p.searchKnowledgeBase content search sortMode page pageSize).1.m_request.url.queryItems
      = (p.createUrl "knowledgebase/data").1.queryItems
        ++ ((if content.isValid then [("content", content.id)] else [])
        ++ [("search", search),
            ("sortmode", match sortMode with
              | SortMode.Newest => "new"
              | SortMode.Alphabetical => "alpha"
              | SortMode.Rating => "high"
              | SortMode.Downloads => "new"),
            ("page", toString page), ("pagesize", toString pageSize)]) := by
    simp only [searchKnowledgeBase, createRequest_url]
    cases content.isValid <;> cases sortMode <;> simp [QUrl.addQueryItem, numberInt, isEmpty]
  rw [knowledgeBaseItems, hitems, List.drop_left]

end Provider

/-! ## The claims about the remaining factory methods -/

/-- C21. For every sort mode, `searchKnowledgeBase` adds exactly one `sortmode`
item to the URL: `new` for Newest, `alpha` for Alphabetical, `high` for Rating,
and `new` again for Downloads; the value is always one of `new`, `alpha`,
`high`, and no item `sortmode=down` is ever added. -/
theorem searchKnowledgeBase_sortmode {Store : Type} (p : Provider Store) (content : Content)
    (search : String) (page pageSize : Int) :
    (p.knowledgeBaseItems content search SortMode.Newest page pageSize).filter
        (fun kv => kv.1 == "sortmode") = [("sortmode", "new")]
    ∧ (p.knowledgeBaseItems content search SortMode.Alphabetical page pageSize).filter
        (fun kv => kv.1 == "sortmode") = [("sortmode", "alpha")]
    ∧ (p.knowledgeBaseItems content search SortMode.Rating page pageSize).filter
        (fun kv => kv.1 == "sortmode") = [("sortmode", "high")]
    ∧ (p.knowledgeBaseItems content search SortMode.Downloads page pageSize).filter
        (fun kv => kv.1 == "sortmode") = [("sortmode", "new")]
    ∧ (∀ sortMode, ∃ v ∈ ["new", "alpha", "high"],
        (p.knowledgeBaseItems content search sortMode page pageSize).filter
          (fun kv => kv.1 == "sortmode") = [("sortmode", v)])
    ∧ (∀ sortMode,
        ("sortmode", "down") ∉ p.knowledgeBaseItems content search sortMode page pageSize) := by
  have key : ∀ sortMode, (p.knowledgeBaseItems content search sortMode page pageSize).filter
      (fun kv => kv.1 == "sortmode") = [("sortmode", match sortMode with
              | SortMode.Newest => "new"
              | SortMode.Alphabetical => "alpha"
              | SortMode.Rating => "high"
              | SortMode.Downloads => "new")] := by
    intro sortMode
    rw [Provider.knowledgeBaseItems_eq]
    cases content.isValid <;> simp [List.filter]
  refine ⟨key _, key _, key _, key _, ?_, ?_⟩
  · intro sortMode
    cases sortMode
    · exact ⟨"new", by simp, key _⟩
    · exact ⟨"alpha", by simp, key _⟩
    · exact ⟨"high", by simp, key _⟩
    · exact ⟨"new", by simp, key _⟩
  · intro sortMode
    rw [Provider.knowledgeBaseItems_eq]
    cases content.isValid <;> cases sortMode <;> simp

theorem StringMap.value_insertIf (m : StringMap) (c : Bool) (key value other : String) :
    (m.insertIf c key value).value other
      = if other = key ∧ c = true then some value else m.value other := by
  cases c <;> simp [StringMap.insertIf, StringMap.value_insert]

theorem StringMap.value_nil (other : String) : StringMap.value [] other = none := rfl

/-- The function `projectPostParameters` as a chain of conditional inserts. -/
theorem projectPostParameters_eq (project : Project) :
    projectPostParameters project
      = StringMap.insertIf (StringMap.insertIf (StringMap.insertIf (StringMap.insertIf
          (StringMap.insertIf (StringMap.insertIf (StringMap.insertIf (StringMap.insertIf
          (StringMap.insertIf [] (!isEmpty project.name) "name" project.name)
          (!isEmpty project.summary) "summary" project.summary)
          (!isEmpty project.description) "description" project.description)
          (!isEmpty project.url) "url" project.url)
          (project.developers.length != 0) "developers" (join "\n" project.developers))
          (!isEmpty project.version) "version" project.version)
          (!isEmpty project.license) "license" project.license)
          (!isEmpty project.requirements) "requirements" project.requirements)
          (!isEmpty project.specFile) "specfile" project.specFile := rfl

/-- The value that `projectPostParameters` binds to a key. -/
theorem projectPostParameters_value (project : Project) (key : String) :
    (projectPostParameters project).value key
      = if key = "specfile" ∧ project.specFile ≠ "" then some project.specFile
        else if key = "requirements" ∧ project.requirements ≠ "" then some project.requirements
        else if key = "license" ∧ project.license ≠ "" then some project.license
        else if key = "version" ∧ project.version ≠ "" then some project.version
        else if key = "developers" ∧ project.developers ≠ [] then
          some (join "\n" project.developers)
        else if key = "url" ∧ project.url ≠ "" then some project.url
        else if key = "description" ∧ project.description ≠ "" then some project.description
        else if key = "summary" ∧ project.summary ≠ "" then some project.summary
        else if key = "name" ∧ project.name ≠ "" then some project.name
        else none := by
  have hne : ∀ s : String, ((!isEmpty s) = true) = (s ≠ "") := by
    intro s
    exact propext (Provider.not_isEmpty_iff s)
  have hdev : ((project.developers.length != 0) = true) = (project.developers ≠ []) := by
    cases project.developers <;> simp
  rw [projectPostParameters_eq]
  simp only [StringMap.value_insertIf, StringMap.value_nil, hne, hdev]

/-- C22 (what the code does). `deleteRemoteAccount` gives its post job an empty
parameter map, `approveFriendship`, `declineFriendship` and `cancelFriendship`
construct theirs without parameters, and `createProject` gives an empty map
for a project whose fields are all empty, whereas the methods with a dummy
parameter give a map that is not empty. -/
theorem postJob_parameters {Store : Type} (p : Provider Store) (id : String)
    (job : BuildServiceJob) (publisher : Publisher) :
    (p.deleteRemoteAccount id).1.m_parameters = []
    ∧ (p.approveFriendship id).1.m_parameters = []
    ∧ (p.declineFriendship id).1.m_parameters = []
    ∧ (p.cancelFriendship id).1.m_parameters = []
    ∧ (p.createProject {}).1.m_parameters = []
    ∧ (p.createBuildServiceJob job).1.m_parameters = [("dummyparameter", "dummyvalue")]
    ∧ (p.cancelBuildServiceJob job).1.m_parameters = [("dummyparameter", "dummyvalue")]
    ∧ (p.publishBuildJob job publisher).1.m_parameters = [("dummyparameter", "dummyvalue")]
    ∧ (sampleProvider.deleteRemoteAccount "42").1.m_parameters.isEmpty = true
    ∧ (sampleProvider.deleteRemoteAccount "42").1.m_request.url.toString
        = "http://example.org/v1/buildservice/remoteaccounts/remove/42" := by
  refine ⟨?_, ?_, ?_, ?_, ?_, ?_, ?_, ?_, by decide, by decide⟩ <;>
    simp [Provider.deleteRemoteAccount, Provider.approveFriendship,
      Provider.declineFriendship, Provider.cancelFriendship, Provider.createProject,
      Provider.createBuildServiceJob, Provider.cancelBuildServiceJob,
      Provider.publishBuildJob, Provider.postJobPath, projectPostParameters,
      StringMap.insert, isEmpty]

/-- C23. `voteForComment(id, rating)` returns no job exactly when the rating is
above 100; otherwise it returns a post job whose request is the one built for
the path `comments/vote/` followed by the id and whose only parameter is
`vote` with the decimal rating. `voteForContent(contentId, rating)` with a
rating of at most 100 passes its assertion, compiled in or not, and returns a
post job for the path `content/vote/` followed by the content id with the
single parameter `vote`, the decimal rating. -/
theorem vote_rating {Store : Type} (p : Provider Store) (id : String) (rating : Nat) :
    ((p.voteForComment id rating).1 = none ↔ rating > 100)
    ∧ (rating ≤ 100 →
        ∃ job, (p.voteForComment id rating).1 = some job
          ∧ job.m_parameters = [("vote", toString rating)]
          ∧ job.m_request = (p.createRequestPath ("comments/vote/" ++ id)).1)
    ∧ (rating ≤ 100 → ∀ assertions,
        ∃ r, Provider.voteForContent assertions p id rating = some r
          ∧ r.1.m_parameters = [("vote", toString rating)]
          ∧ r.1.m_request = (p.createRequestPath ("content/vote/" ++ id)).1) := by
  refine ⟨?_, ?_, ?_⟩
  · by_cases h : rating > 100 <;> simp [Provider.voteForComment, h]
  · intro h
    have h' : ¬ rating > 100 := by omega
    simp only [Provider.voteForComment, if_neg h']
    refine ⟨_, rfl, ?_, ?_⟩
    · simp [Provider.postJobUrl, StringMap.insert, numberUInt]
    · simp [Provider.postJobUrl, Provider.createRequestPath]
  · intro h assertions
    have hd : (assertions && !decide (rating ≤ 100)) = false := by simp [h]
    simp only [Provider.voteForContent, hd]
    refine ⟨_, rfl, ?_, ?_⟩
    · simp [Provider.postJobPath, StringMap.insert, numberUInt]
    · simp [Provider.postJobPath]

/-- C23, at a concrete input: a rating of 55 on comment 7 of the sample
provider, and a rating of 101. -/
theorem vote_rating_witness :
    (∃ job, (sampleProvider.voteForComment "7" 55).1 = some job
      ∧ job.m_parameters = [("vote", "55")]
      ∧ job.m_request = (sampleProvider.createRequestPath ("comments/vote/" ++ "7")).1)
    ∧ ((sampleProvider.voteForComment "7" 55).1.map
        (fun job => job.m_request.url.toString)) = some "http://example.org/v1/comments/vote/7"
    ∧ ((sampleProvider.voteForComment "7" 101).1.map (fun job => job.m_parameters)) = none :=
  ⟨(vote_rating sampleProvider "7" 55).2.1 (by decide), by decide, by decide⟩

/-- C24. `addNewContent(category, cont)` returns no job exactly when the
category is invalid; otherwise the posted parameter map binds `name` to the
name of the content, `type` to the id of the category, and every other key to
what the attributes of the content bind it to; the request is the one built
for the path `content/add`. -/
theorem addNewContent_parameters {Store : Type} (p : Provider Store) (category : Category)
    (cont : Content) :
    ((p.addNewContent category cont).1 = none ↔ category.isValid = false)
    ∧ (category.isValid = true →
        ∃ job, (p.addNewContent category cont).1 = some job
          ∧ (∀ key, job.m_parameters.value key
              = if key = "name" then some cont.name
                else if key = "type" then some category.id
                else cont.attributes.value key)
          ∧ job.m_request = (p.createRequestPath "content/add").1) := by
  refine ⟨?_, ?_⟩
  · cases h : category.isValid <;> simp [Provider.addNewContent, h]
  · intro h
    simp only [Provider.addNewContent, h]
    refine ⟨_, rfl, ?_, ?_⟩
    · intro key
      simp only [StringMap.value_insert]
    · simp [Provider.createRequestPath]

/-- C24, at a concrete input: the attributes hold a `name` and a `type` of their
own, which are overridden, and a key `k`, which is kept. -/
theorem addNewContent_parameters_witness :
    (∃ job, (sampleProvider.addNewContent { id := "3", isValid := true }
          { name := "x", attributes := [("name", "old"), ("k", "v"), ("type", "t")] }).1
        = some job
      ∧ job.m_parameters.value "name" = some "x"
      ∧ job.m_parameters.value "type" = some "3"
      ∧ job.m_parameters.value "k" = some "v")
    ∧ ((sampleProvider.addNewContent { id := "3", isValid := false }
          { name := "x" }).1.map (fun job => job.m_parameters)) = none :=
  ⟨(addNewContent_parameters sampleProvider { id := "3", isValid := true }
      { name := "x", attributes := [("name", "old"), ("k", "v"), ("type", "t")] }).2 rfl
      |>.imp (fun _ h => ⟨h.1, by rw [h.2.1]; rfl, by rw [h.2.1]; rfl, by rw [h.2.1]; rfl⟩),
    by decide⟩

/-- C30. For every project, the map of `projectPostParameters` holds the key
`name`, `summary`, `description`, `url`, `version`, `license`, `requirements`
or `specfile` exactly when the corresponding field is not empty, with the
field as its value; it holds `developers` exactly when the list of developers
is not empty, with the developers joined by a newline; and it holds no other
key, in particular never the id of the project. -/
theorem projectPostParameters_keys (project : Project) :
    (projectPostParameters project).value "name"
      = (if project.name = "" then none else some project.name)
    ∧ (projectPostParameters project).value "summary"
      = (if project.summary = "" then none else some project.summary)
    ∧ (projectPostParameters project).value "description"
      = (if project.description = "" then none else some project.description)
    ∧ (projectPostParameters project).value "url"
      = (if project.url = "" then none else some project.url)
    ∧ (projectPostParameters project).value "version"
      = (if project.version = "" then none else some project.version)
    ∧ (projectPostParameters project).value "license"
      = (if project.license = "" then none else some project.license)
    ∧ (projectPostParameters project).value "requirements"
      = (if project.requirements = "" then none else some project.requirements)
    ∧ (projectPostParameters project).value "specfile"
      = (if project.specFile = "" then none else some project.specFile)
    ∧ (projectPostParameters project).value "developers"
      = (if project.developers = [] then none else some (join "\n" project.developers))
    ∧ (projectPostParameters project).value "id" = none
    ∧ (∀ key, key ∉ ["name", "summary", "description", "url", "version", "license",
          "requirements", "specfile", "developers"] →
        (projectPostParameters project).value key = none) := by
  refine ⟨?_, ?_, ?_, ?_, ?_, ?_, ?_, ?_, ?_, ?_, ?_⟩
  · rw [projectPostParameters_value]; by_cases h : project.name = "" <;> simp [h]
  · rw [projectPostParameters_value]; by_cases h : project.summary = "" <;> simp [h]
  · rw [projectPostParameters_value]; by_cases h : project.description = "" <;> simp [h]
  · rw [projectPostParameters_value]; by_cases h : project.url = "" <;> simp [h]
  · rw [projectPostParameters_value]; by_cases h : project.version = "" <;> simp [h]
  · rw [projectPostParameters_value]; by_cases h : project.license = "" <;> simp [h]
  · rw [projectPostParameters_value]; by_cases h : project.requirements = "" <;> simp [h]
  · rw [projectPostParameters_value]; by_cases h : project.specFile = "" <;> simp [h]
  · rw [projectPostParameters_value]; by_cases h : project.developers = [] <;> simp [h]
  · rw [projectPostParameters_value]; simp
  · intro key hkey
    simp only [List.mem_cons, List.mem_singleton, List.not_mem_nil, or_false, not_or] at hkey
    obtain ⟨h1, h2, h3, h4, h5, h6, h7, h8, h9⟩ := hkey
    rw [projectPostParameters_value]
    simp [h1, h2, h3, h4, h5, h6, h7, h8, h9]

/-- C30, at a concrete input: a project with an id, a name, two developers and
a spec file. -/
theorem projectPostParameters_keys_witness :
    "id" ∉ ["name", "summary", "description", "url", "version", "license",
          "requirements", "specfile", "developers"]
    ∧ (projectPostParameters
        { id := "7", name := "n", developers := ["a", "b"], specFile := "s" }).value "id" = none
    ∧ projectPostParameters
        { id := "7", name := "n", developers := ["a", "b"], specFile := "s" }
      = [("specfile", "s"), ("developers", "a\nb"), ("name", "n")] :=
  ⟨by decide,
   (projectPostParameters_keys
      { id := "7", name := "n", developers := ["a", "b"], specFile := "s" }).2.2.2.2.2.2.2.2.2.2
      "id" (by decide),
   by decide⟩

/-! ## The claims about the private data, the credentials and the received data -/

/-- C25 (what the code does). The copy constructor of the private data copies
the base URL, the name, the credential pair, the nine version strings and the
platform object, and leaves the icon default-constructed: the copy of private
data with the icon `http://example.org/icon.png` has an empty icon. -/
theorem copy_drops_icon {Store : Type} (other : Private Store) :
    Provider.sameConfiguration other.copy other
    ∧ other.copy.m_icon = {}
    ∧ privateWithIcon.m_icon.toString = "http://example.org/icon.png"
    ∧ privateWithIcon.copy.m_icon ≠ privateWithIcon.m_icon
    ∧ privateWithIcon.copy.m_icon.isEmpty = true :=
  ⟨Provider.sameConfiguration_copy other, rfl, by decide, by decide, by decide⟩

/-- C26. On construction with an empty base URL the stored credentials are
empty and the credential store receives no call. Otherwise `hasCredentials`
is called; when it answers no, nothing else is called and the credentials are
empty; when it answers yes, `loadCredentials` is called, and the stored
credentials are the loaded pair when it succeeds and empty when it fails. -/
theorem create_credentials {Store : Type} (internals : PlatformDependent Store) (store : Store)
    (baseUrl : QUrl) (name : String) (icon : QUrl)
    (person friendV message activity content fan knowledgebase event comment : String) :
    (baseUrl.isEmpty = true →
      (Private.create (logged internals) (store, []) baseUrl name icon person friendV message
          activity content fan knowledgebase event comment).1.m_credentialsUserName = ""
      ∧ (Private.create (logged internals) (store, []) baseUrl name icon person friendV message
          activity content fan knowledgebase event comment).1.m_credentialsPassword = ""
      ∧ (Private.create (logged internals) (store, []) baseUrl name icon person friendV message
          activity content fan knowledgebase event comment).2 = (store, []))
    ∧ (baseUrl.isEmpty = false → (internals.hasCredentials store baseUrl).1 = false →
      (Private.create (logged internals) (store, []) baseUrl name icon person friendV message
          activity content fan knowledgebase event comment).1.m_credentialsUserName = ""
      ∧ (Private.create (logged internals) (store, []) baseUrl name icon person friendV message
          activity content fan knowledgebase event comment).1.m_credentialsPassword = ""
      ∧ (Private.create (logged internals) (store, []) baseUrl name icon person friendV message
          activity content fan knowledgebase event comment).2.2
          = [StoreCall.hasCredentials baseUrl])
    ∧ (baseUrl.isEmpty = false → (internals.hasCredentials store baseUrl).1 = true →
      (Private.create (logged internals) (store, []) baseUrl name icon person friendV message
          activity content fan knowledgebase event comment).2.2
          = [StoreCall.hasCredentials baseUrl, StoreCall.loadCredentials baseUrl]
      ∧ ((internals.loadCredentials (internals.hasCredentials store baseUrl).2 baseUrl).1.1
            = true →
          (Private.create (logged internals) (store, []) baseUrl name icon person friendV
              message activity content fan knowledgebase event comment).1.m_credentialsUserName
            = (internals.loadCredentials (internals.hasCredentials store baseUrl).2
                baseUrl).1.2.1
          ∧ (Private.create (logged internals) (store, []) baseUrl name icon person friendV
              message activity content fan knowledgebase event comment).1.m_credentialsPassword
            = (internals.loadCredentials (internals.hasCredentials store baseUrl).2
                baseUrl).1.2.2)
      ∧ ((internals.loadCredentials (internals.hasCredentials store baseUrl).2 baseUrl).1.1
            = false →
          (Private.create (logged internals) (store, []) baseUrl name icon person friendV
              message activity content fan knowledgebase event comment).1.m_credentialsUserName
            = ""
          ∧ (Private.create (logged internals) (store, []) baseUrl name icon person friendV
              message activity content fan knowledgebase event comment).1.m_credentialsPassword
            = "")) := by
  refine ⟨?_, ?_, ?_⟩
  · intro hempty
    simp [Private.create, hempty]
  · intro hempty hhas
    simp [Private.create, hempty, logged, hhas]
  · intro hempty hhas
    refine ⟨?_, ?_, ?_⟩
    · cases hl : (internals.loadCredentials (internals.hasCredentials store baseUrl).2
          baseUrl).1.1 <;> simp [Private.create, hempty, logged, hhas, hl]
    · intro hl
      simp [Private.create, hempty, logged, hhas, hl]
    · intro hl
      simp [Private.create, hempty, logged, hhas, hl]

/-- C26, at concrete inputs: a store that holds `user`, `pass`, a store that
holds nothing, and an empty base URL. -/
theorem create_credentials_witness :
    ((Private.create (logged walletStore) ((), []) (QUrl.fromString "http://example.org/v1/")
        "example" {} "" "" "" "" "" "" "" "" "").1.m_credentialsUserName = "user"
      ∧ (Private.create (logged walletStore) ((), []) (QUrl.fromString "http://example.org/v1/")
        "example" {} "" "" "" "" "" "" "" "" "").1.m_credentialsPassword = "pass")
    ∧ (Private.create (logged emptyStore) ((), []) (QUrl.fromString "http://example.org/v1/")
        "example" {} "" "" "" "" "" "" "" "" "").2.2
        = [StoreCall.hasCredentials (QUrl.fromString "http://example.org/v1/")]
    ∧ (Private.create (logged walletStore) ((), []) {} "example" {} "" "" "" "" "" "" "" ""
        "").2 = ((), []) :=
  ⟨((create_credentials walletStore () (QUrl.fromString "http://example.org/v1/") "example" {}
      "" "" "" "" "" "" "" "" "").2.2 (by decide) rfl).2.1 rfl,
   ((create_credentials emptyStore () (QUrl.fromString "http://example.org/v1/") "example" {}
      "" "" "" "" "" "" "" "" "").2.1 (by decide) rfl).2.2,
   ((create_credentials walletStore () {} "example" {} "" "" "" "" "" "" "" "" "").1
      (by decide)).2.2⟩

/-- C27 (what the code does). For a provider with a platform object,
`loadCredentials` returns the answer of the store; the stored credentials
become the loaded pair on success and stay as they were on failure; base URL,
name, version strings and platform object stay as they were. The icon stays
as it was when the private data is not shared, and is empty afterwards when
it is shared, since the access detaches through the copy constructor: the
shared sample provider loses its icon, whether the load succeeds or not. -/
theorem loadCredentials_effect {Store : Type} (d : Private Store)
    (internals : PlatformDependent Store) (shared : Bool) (store : Store) :
    (∃ p, Provider.loadCredentials
          { d := { d with m_internals := some internals }, shared := shared } store
        = some ((internals.loadCredentials store d.m_baseUrl).1, p,
            (internals.loadCredentials store d.m_baseUrl).2)
      ∧ p.d.m_credentialsUserName
          = (if (internals.loadCredentials store d.m_baseUrl).1.1 = true then
              (internals.loadCredentials store d.m_baseUrl).1.2.1
             else d.m_credentialsUserName)
      ∧ p.d.m_credentialsPassword
          = (if (internals.loadCredentials store d.m_baseUrl).1.1 = true then
              (internals.loadCredentials store d.m_baseUrl).1.2.2
             else d.m_credentialsPassword)
      ∧ p.d.m_baseUrl = d.m_baseUrl ∧ p.d.m_name = d.m_name
      ∧ p.d.m_personVersion = d.m_personVersion ∧ p.d.m_friendVersion = d.m_friendVersion
      ∧ p.d.m_messageVersion = d.m_messageVersion
      ∧ p.d.m_activityVersion = d.m_activityVersion
      ∧ p.d.m_contentVersion = d.m_contentVersion ∧ p.d.m_fanVersion = d.m_fanVersion
      ∧ p.d.m_knowledgebaseVersion = d.m_knowledgebaseVersion
      ∧ p.d.m_eventVersion = d.m_eventVersion ∧ p.d.m_commentVersion = d.m_commentVersion
      ∧ p.d.m_internals = some internals
      ∧ p.d.m_icon = (if shared = true then {} else d.m_icon))
    ∧ ((sharedProviderWithIcon.loadCredentials ()).map
          (fun r => (r.1.1, r.2.1.d.m_icon.isEmpty))) = some (true, true)
    ∧ sharedProviderWithIcon.d.m_icon.isEmpty = false
    ∧ ((Provider.loadCredentials
          { d := { privateWithIcon with m_internals := some emptyStore }, shared := true }
          ()).map (fun r => (r.1.1, r.2.1.d.m_icon.isEmpty))) = some (false, true) := by
  refine ⟨?_, by decide, by decide, by decide⟩
  cases shared <;> cases hl : (internals.loadCredentials store d.m_baseUrl).1.1
  · refine ⟨{ d := { d with m_internals := some internals }, shared := false }, ?_, ?_⟩
    · simp [Provider.loadCredentials, Provider.detach, hl]
      rw [← hl]
    · simp [hl]
  · refine ⟨{ d := { d with
                m_internals := some internals
                m_credentialsUserName := (internals.loadCredentials store d.m_baseUrl).1.2.1
                m_credentialsPassword := (internals.loadCredentials store d.m_baseUrl).1.2.2 },
              shared := false }, ?_, ?_⟩
    · simp [Provider.loadCredentials, Provider.detach, hl]
      rw [← hl]
    · simp [hl]
  · refine ⟨{ d := (Private.copy { d with m_internals := some internals }), shared := false },
      ?_, ?_⟩
    · simp [Provider.loadCredentials, Provider.detach, hl, Private.copy]
      rw [← hl]
    · simp [hl, Private.copy]
  · refine ⟨{ d := { (Private.copy { d with m_internals := some internals }) with
                m_credentialsUserName := (internals.loadCredentials store d.m_baseUrl).1.2.1
                m_credentialsPassword := (internals.loadCredentials store d.m_baseUrl).1.2.2 },
              shared := false }, ?_, ?_⟩
    · simp [Provider.loadCredentials, Provider.detach, hl, Private.copy]
      rw [← hl]
    · simp [hl, Private.copy]

/-- C28. For every path, the URL of `createUrl` has the stored user name and
password as its user information when the stored user name is not empty; when
it is empty, the user information is the one of the text of the base URL
followed by the path, whatever the stored password. -/
theorem createUrl_userInfo_cases {Store : Type} (p : Provider Store) (path : String) :
    (p.createUrl path).1.userName
      = (if p.d.m_credentialsUserName = "" then
          (QUrl.fromString (p.d.m_baseUrl.toString ++ path)).userName
         else p.d.m_credentialsUserName)
    ∧ (p.createUrl path).1.password
      = (if p.d.m_credentialsUserName = "" then
          (QUrl.fromString (p.d.m_baseUrl.toString ++ path)).password
         else p.d.m_credentialsPassword) := by
  rw [Provider.createUrl_fst]
  by_cases h : p.d.m_credentialsUserName = ""
  · simp [h, isEmpty]
  · simp [h, (isEmpty_eq_false_iff _).2 h, QUrl.setUserName, QUrl.setPassword]

namespace KnowledgeBaseEntryJob

variable {E M : Type}

/-- The chunks of data that arrive are appended in arrival order, and nothing
else changes. -/
theorem run_data (parser : Parser E M) (chunks : List QByteArray) :
    ∀ (j : KnowledgeBaseEntryJob E M),
      (run parser j (chunks.map JobEvent.data)).m_data = j.m_data ++ chunks.flatten
      ∧ (run parser j (chunks.map JobEvent.data)).effects = j.effects := by
  induction chunks with
  | nil => intro j; simp [run]
  | cons c cs ih =>
      intro j
      obtain ⟨h1, h2⟩ := ih (j.slotJobData c)
      simp only [run, List.map_cons, List.foldl_cons, step] at h1 h2 ⊢
      refine ⟨?_, ?_⟩
      · rw [h1]; simp [slotJobData]
      · rw [h2]; rfl

end KnowledgeBaseEntryJob

theorem parsedTexts_append_emit {E M : Type} (l : List (Effect E M)) (a : Int) (b : String)
    (c : E) (d : M) : parsedTexts (l ++ [Effect.emitResult a b c d]) = parsedTexts l := by
  induction l with
  | nil => rfl
  | cons e l ih => cases e <;> simp [parsedTexts, ih]

theorem parsedTexts_append_parse {E M : Type} (l : List (Effect E M)) (t : String) :
    parsedTexts (l ++ [Effect.parse t]) = parsedTexts l ++ [t] := by
  induction l with
  | nil => rfl
  | cons e l ih => cases e <;> simp [parsedTexts, ih]

theorem takeWhile_eq_self_of_not_mem (data : QByteArray) (h : 0 ∉ data) :
    data.takeWhile (fun b => b != 0) = data := by
  induction data with
  | nil => rfl
  | cons b rest ih =>
      have hb : b ≠ 0 := fun e => h (e ▸ List.mem_cons_self _ _)
      have hrest : 0 ∉ rest := fun hm => h (List.mem_cons_of_mem _ hm)
      simp [List.takeWhile_cons, hb, ih hrest]

/-- C29 (what the code does). The chunks delivered to `slotJobData` are all
kept, in arrival order, and after a successful transport result the parser
is called once, with the text `fromUtf8(m_data.data())`, which is the
decoding of the received bytes up to the first zero byte only. For data
without a zero byte this is the decoding of everything; for the chunks
`<a>` and a zero byte followed by `<b>` the parser gets the text `<a>` and
not the seven characters that were received. -/
theorem data_then_result {E M : Type} [Inhabited E] [Inhabited M] (parser : Parser E M)
    (chunks : List QByteArray) :
    (KnowledgeBaseEntryJob.run parser (KnowledgeBaseEntryJob.new : KnowledgeBaseEntryJob E M)
        (chunks.map JobEvent.data)).m_data = chunks.flatten
    ∧ parsedTexts (KnowledgeBaseEntryJob.run parser
        (KnowledgeBaseEntryJob.new : KnowledgeBaseEntryJob E M)
        (chunks.map JobEvent.data ++ [JobEvent.result { error := 0, errorText := "" }])).effects
        = [fromUtf8 chunks.flatten]
    ∧ fromUtf8 chunks.flatten = fromUtf8Sized (chunks.flatten.takeWhile (fun b => b != 0))
    ∧ (0 ∉ chunks.flatten → fromUtf8 chunks.flatten = fromUtf8Sized chunks.flatten)
    ∧ parsedTexts (KnowledgeBaseEntryJob.run failedEnvelopeParser KnowledgeBaseEntryJob.new
        [JobEvent.data [60, 97, 62], JobEvent.data [0, 60, 98, 62],
         JobEvent.result { error := 0, errorText := "" }]).effects = ["<a>"]
    ∧ fromUtf8Sized ([60, 97, 62] ++ [0, 60, 98, 62])
        = String.mk ['<', 'a', '>', Char.ofNat 0, '<', 'b', '>']
    ∧ fromUtf8 ([60, 97, 62] ++ [0, 60, 98, 62])
        ≠ fromUtf8Sized ([60, 97, 62] ++ [0, 60, 98, 62]) := by
  obtain ⟨hd, he⟩ := KnowledgeBaseEntryJob.run_data parser chunks
    (KnowledgeBaseEntryJob.new : KnowledgeBaseEntryJob E M)
  have hd' : (KnowledgeBaseEntryJob.run parser
      (KnowledgeBaseEntryJob.new : KnowledgeBaseEntryJob E M)
      (chunks.map JobEvent.data)).m_data = chunks.flatten := by
    rw [hd]; simp [KnowledgeBaseEntryJob.new]
  refine ⟨hd', ?_, rfl, ?_, by decide, by decide, by decide⟩
  · rw [KnowledgeBaseEntryJob.run_append]
    simp only [KnowledgeBaseEntryJob.run, List.foldl_cons, List.foldl_nil,
      KnowledgeBaseEntryJob.step, KnowledgeBaseEntryJob.slotJobResult,
      KnowledgeBaseEntryJob.emitResult]
    simp only [ne_eq, not_true_eq_false, if_false, parsedTexts_append_emit,
      parsedTexts_append_parse]
    have hd2 := hd'
    have he2 := he
    simp only [KnowledgeBaseEntryJob.run] at hd2 he2
    rw [he2, hd2]
    simp [KnowledgeBaseEntryJob.new, parsedTexts]
  · intro h0
    simp only [fromUtf8, fromUtf8Sized, takeWhile_eq_self_of_not_mem _ h0]

/-- C29, at data without a zero byte: the parser gets the whole text. -/
theorem data_then_result_witness :
    0 ∉ [[60, 97, 62], [60, 98, 62]].flatten
    ∧ fromUtf8 [[60, 97, 62], [60, 98, 62]].flatten = "<a><b>" :=
  ⟨by decide,
   ((data_then_result failedEnvelopeParser [[60, 97, 62], [60, 98, 62]]).2.2.2.1
      (by decide)).trans (by decide)⟩

end Attica
